import Mathlib

/-!
# git-sync: a verification development of `main.go`

A shallow embedding of the reconciliation loop of `git-sync` (`src/main.go`).

* Go strings are Lean `String`s.
* An `error` value is represented by its text (`err.Error()`), `nil` by `none`.
* The operating system (file system, external executables, environment) is an
  explicit world `σ` together with a `Sys σ` record of the calls the program makes
  into it; every call the program makes is appended to an event trace.
* Go's `int` and `time.Duration` are 64-bit two's-complement integers.
-/

namespace GitSync

/-! ## Standard-library functions used by the program -/

/-- The loop of `path.Clean` that removes one path element after a `..`:
`c` is the byte that was dropped last, the list is the output buffer, last byte first.
Bytes are dropped while more than `dotdot` remain and the dropped one is not a slash. -/
def backLoop (dotdot : Nat) (c : Char) : List Char → List Char
  | [] => []
  | c' :: r => if (c' :: r).length > dotdot ∧ c ≠ '/' then backLoop dotdot c' r else c' :: r

/-- The statement `out.w--` followed by the backtracking loop of `path.Clean`. -/
def backtrack (dotdot : Nat) : List Char → List Char
  | [] => []
  | c :: r => backLoop dotdot c r

/-- The main loop of `path.Clean`; `path` is the unread input, `rout` the output
buffer with its last byte first, `dotdot` the index where `..` must stop. Every
round reads at least one byte, so the length of the input is enough fuel. -/
def cleanLoop (rooted : Bool) : Nat → List Char → List Char → Nat → List Char
  | 0, _, rout, _ => rout
  | fuel + 1, path, rout, dotdot =>
    match path with
    | [] => rout
    | c :: rest =>
      if c = '/' then
        -- empty path element
        cleanLoop rooted fuel rest rout dotdot
      else if c = '.' ∧ (rest = [] ∨ rest.head? = some '/') then
        -- . element
        cleanLoop rooted fuel rest rout dotdot
      else if c = '.' ∧ rest.head? = some '.' ∧
          (rest.tail = [] ∨ rest.tail.head? = some '/') then
        -- .. element: remove to last /
        if rout.length > dotdot then
          cleanLoop rooted fuel rest.tail (backtrack dotdot rout) dotdot
        else if !rooted then
          let rout1 := if rout.length > 0 then '/' :: rout else rout
          let rout2 := '.' :: '.' :: rout1
          cleanLoop rooted fuel rest.tail rout2 rout2.length
        else
          cleanLoop rooted fuel rest.tail rout dotdot
      else
        -- real path element: add slash if needed, then copy the element
        let rout1 :=
          if (rooted ∧ rout.length ≠ 1) ∨ (!rooted ∧ rout.length ≠ 0) then '/' :: rout
          else rout
        let elem := (c :: rest).takeWhile (fun x => x ≠ '/')
        cleanLoop rooted fuel ((c :: rest).dropWhile (fun x => x ≠ '/'))
          (elem.reverse ++ rout1) dotdot

/-- Go's `path.Clean`: the shortest path name equivalent to `path` by purely
lexical processing. -/
def pathClean (path : String) : String :=
  if path = "" then "."
  else
    let p := path.data
    let rooted : Bool := p.head? = some '/'
    let rout :=
      if rooted then cleanLoop rooted p.length p.tail ['/'] 1
      else cleanLoop rooted p.length p [] 0
    if rout = [] then "." else String.mk rout.reverse

/-- The buffer loop of `path.Join`: an element is appended (after a slash when the
buffer is not empty) unless the buffer and the element are both empty. -/
def joinBuf : List String → String → String
  | [], buf => buf
  | e :: es, buf =>
    if buf.length > 0 ∨ e ≠ "" then
      joinBuf es ((if buf.length > 0 then buf ++ "/" else buf) ++ e)
    else joinBuf es buf

/-- Go's `path.Join`: joins the elements with slashes and cleans the result; the
empty string when every element is empty. -/
def pathJoin (elem : List String) : String :=
  if (elem.map String.length).sum = 0 then "" else pathClean (joinBuf elem "")

/-- Go's `strings.Join`. -/
def stringsJoin (elems : List String) (sep : String) : String :=
  sep.intercalate elems

/-! ## The operating system as seen by the program -/

/-- An error returned by `os.Stat`: its text and whether `os.IsNotExist` holds of it. -/
structure OsError where
  msg : String
  notExist : Bool
  deriving DecidableEq, Repr

/-- Go's `os.IsNotExist`, which is false of the `nil` error. -/
def isNotExist : Option OsError → Bool
  | none => false
  | some e => e.notExist

/-- An `exec.Cmd` as built by `exec.Command`: `args` is `cmd.Args` (the command name
first), `dir` is `cmd.Dir` (empty: the directory of the calling process). -/
structure Cmd where
  args : List String
  dir : String
  deriving DecidableEq, Repr

/-- Go's `exec.Command(name, arg...)`; `Dir` is left empty. -/
def command (name : String) (arg : List String) : Cmd :=
  { args := name :: arg, dir := "" }

/-- What `cmd.CombinedOutput()` returns: the combined output and the error. -/
structure CmdResult where
  output : String
  err : Option String
  deriving DecidableEq, Repr

/-- The calls `main.go` makes into its environment, over a world `σ`.
`run` is `cmd.CombinedOutput()`, which may change the world; `quote` is the
rendering of a string by the `%q` verb of package `fmt`. -/
structure Sys (σ : Type) where
  stat : σ → String → Option OsError
  run : σ → Cmd → CmdResult × σ
  lookPath : σ → String → Option String
  quote : String → String

/-- One observable action of the process. -/
inductive Event where
  | stat (path : String) (err : Option OsError)
  | exec (cmd : Cmd) (res : CmdResult)
  | log (msg : String)
  | usage
  | startMetrics
  | call (repo dest branch rev : String)
  | ret (err : Option String)
  | sleep (nanos : Int)
  deriving DecidableEq, Repr

/-- The external commands among the events, in order, with their results. -/
def cmdsOf : List Event → List (Cmd × CmdResult)
  | [] => []
  | Event.exec c r :: es => (c, r) :: cmdsOf es
  | _ :: es => cmdsOf es

/-! ## `syncRepo` -/

/-- The outcome of one call of `syncRepo`: the returned error, the events of the
call in order, and the world it leaves behind. -/
structure Run (σ : Type) where
  err : Option String
  events : List Event
  world : σ

/-- The command of the clone step. -/
def cloneCmd (repo dest branch : String) : Cmd :=
  command "git" ["clone", "--no-checkout", "-b", branch, repo, dest]

/-- The command of the fetch step, run in `dest`. -/
def fetchCmd (dest branch : String) : Cmd :=
  { command "git" ["fetch", "origin", branch] with dir := dest }

/-- The command of the reset step, run in `dest`. -/
def resetCmd (dest rev : String) : Cmd :=
  { command "git" ["reset", "--hard", rev] with dir := dest }

/-- The command of the permission step, run in `dest`. -/
def chmodCmd (dest : String) : Cmd :=
  { command "chmod" ["-R", "755", dest] with dir := dest }

/-- The error of a failed clone: `"error cloning repo %q: %v: %s"`. -/
def cloneError {σ : Type} (sys : Sys σ) (cmd : Cmd) (e output : String) : String :=
  "error cloning repo " ++ sys.quote (stringsJoin cmd.args " ") ++ ": " ++ e ++ ": " ++ output

/-- The error of a failed stat: `"error checking if repo exist %q: %v"`. -/
def statError {σ : Type} (sys : Sys σ) (gitRepoPath e : String) : String :=
  "error checking if repo exist " ++ sys.quote gitRepoPath ++ ": " ++ e

/-- The error of a failed fetch: `"error running command %q: %v: %s"`. -/
def fetchError {σ : Type} (sys : Sys σ) (cmd : Cmd) (e output : String) : String :=
  "error running command " ++ sys.quote (stringsJoin cmd.args " ") ++ ": " ++ e ++ ": " ++ output

/-- The error of a failed reset or chmod: `"error running command %q : %v: %s"`. -/
def runError {σ : Type} (sys : Sys σ) (cmd : Cmd) (e output : String) : String :=
  "error running command " ++ sys.quote (stringsJoin cmd.args " ") ++ " : " ++ e ++ ": " ++ output

/-- The permission step of `syncRepo` (lines 153-161). -/
def syncChmod {σ : Type} (sys : Sys σ) (dest : String) (w : σ) (evs : List Event) : Run σ :=
  let cmd := chmodCmd dest
  let r := sys.run w cmd
  match r.1.err with
  | some e => ⟨some (runError sys cmd e r.1.output), evs ++ [Event.exec cmd r.1], r.2⟩
  | none => ⟨none, evs ++ [Event.exec cmd r.1], r.2⟩

/-- The reset step of `syncRepo` and what follows it (lines 144-161). -/
def syncReset {σ : Type} (sys : Sys σ) (dest rev : String) (w : σ) (evs : List Event) :
    Run σ :=
  let cmd := resetCmd dest rev
  let r := sys.run w cmd
  match r.1.err with
  | some e => ⟨some (runError sys cmd e r.1.output), evs ++ [Event.exec cmd r.1], r.2⟩
  | none =>
    syncChmod sys dest r.2
      (evs ++ [Event.exec cmd r.1,
        Event.log ("reset " ++ sys.quote rev ++ ": " ++ r.1.output)])

/-- The fetch step of `syncRepo` and what follows it (lines 135-161). -/
def syncFetch {σ : Type} (sys : Sys σ) (dest branch rev : String) (w : σ)
    (evs : List Event) : Run σ :=
  let cmd := fetchCmd dest branch
  let r := sys.run w cmd
  match r.1.err with
  | some e => ⟨some (fetchError sys cmd e r.1.output), evs ++ [Event.exec cmd r.1], r.2⟩
  | none =>
    syncReset sys dest rev r.2
      (evs ++ [Event.exec cmd r.1,
        Event.log ("fetch " ++ sys.quote branch ++ ": " ++ r.1.output)])

/-- The function `syncRepo` of `main.go`: syncs the branch of a given repository to
the destination at the given rev. -/
def syncRepo {σ : Type} (sys : Sys σ) (repo dest branch rev : String) (w : σ) : Run σ :=
  let gitRepoPath := pathJoin [dest, ".git"]
  let err := sys.stat w gitRepoPath
  let evs := [Event.stat gitRepoPath err]
  if isNotExist err then
    -- clone repo
    let cmd := cloneCmd repo dest branch
    let r := sys.run w cmd
    match r.1.err with
    | some e => ⟨some (cloneError sys cmd e r.1.output), evs ++ [Event.exec cmd r.1], r.2⟩
    | none =>
      syncFetch sys dest branch rev r.2
        (evs ++ [Event.exec cmd r.1,
          Event.log ("clone " ++ sys.quote repo ++ ": " ++ r.1.output)])
  else
    match err with
    | some e => ⟨some (statError sys gitRepoPath e.msg), evs, w⟩
    | none => syncFetch sys dest branch rev w evs

/-! ## The process: startup and the loop of `main` -/

/-- The values of the flags after `flag.Parse()`. -/
structure Config where
  repo : String
  dest : String
  branch : String
  rev : String
  wait : Int
  deriving DecidableEq, Repr

/-- The state of the process: the world, the three metrics (`gitsync_sync_count`,
`gitsync_error_count` and the number of observations of `gitsync_sync_time`), the
events so far, and the exit status once the process has terminated. -/
structure Proc (σ : Type) where
  world : σ
  syncCount : Nat
  errorCount : Nat
  observations : Nat
  events : List Event
  exit : Option Nat

/-- Wrap-around of a 64-bit signed integer. -/
def wrapInt64 (x : Int) : Int :=
  (x + 9223372036854775808) % 18446744073709551616 - 9223372036854775808

/-- The argument of `time.Sleep` in nanoseconds: `time.Duration(*flWait) * time.Second`,
a product of two `int64` values. -/
def sleepDuration (wait : Int) : Int :=
  wrapInt64 (wrapInt64 wait * 1000000000)

/-- The constant `usage`. -/
def usage : String :=
  "usage: GIT_SYNC_REPO= GIT_SYNC_DEST= [GIT_SYNC_BRANCH= GIT_SYNC_WAIT=] git-sync -repo GIT_REPO_URL -dest PATH [-branch -wait]"

/-- One round of the `for` loop of `main` (lines 104-114). -/
def iteration {σ : Type} (sys : Sys σ) (cfg : Config) (p : Proc σ) : Proc σ :=
  let r := syncRepo sys cfg.repo cfg.dest cfg.branch cfg.rev p.world
  let evs := p.events ++ [Event.call cfg.repo cfg.dest cfg.branch cfg.rev] ++ r.events ++
    [Event.ret r.err]
  let p1 : Proc σ :=
    match r.err with
    | some e =>
      { p with
        world := r.world
        errorCount := p.errorCount + 1
        events := evs ++ [Event.log ("error syncing repo: " ++ e ++ "\n")] }
    | none =>
      { p with
        world := r.world
        syncCount := p.syncCount + 1
        observations := p.observations + 1
        events := evs }
  { p1 with
    events := p1.events ++
      [Event.log ("wait " ++ toString cfg.wait ++ " seconds"),
        Event.sleep (sleepDuration cfg.wait),
        Event.log "done"] }

/-- The first `n` rounds of the `for` loop of `main`, which has no exit. -/
def loop {σ : Type} (sys : Sys σ) (cfg : Config) : Nat → Proc σ → Proc σ
  | 0, p => p
  | n + 1, p => loop sys cfg n (iteration sys cfg p)

/-- The function `main` after `flag.Parse()`, observed for the first `n` rounds of
its loop. `log.Fatal` writes the message and exits with status 1. -/
def main {σ : Type} (sys : Sys σ) (cfg : Config) (w : σ) (n : Nat) : Proc σ :=
  let p0 : Proc σ := ⟨w, 0, 0, 0, [], none⟩
  if cfg.repo = "" ∨ cfg.dest = "" then
    { p0 with events := [Event.usage, Event.log usage], exit := some 1 }
  else
    match sys.lookPath w "git" with
    | some e =>
      { p0 with
        events := [Event.log ("required git executable not found: " ++ e)]
        exit := some 1 }
    | none => loop sys cfg n { p0 with events := [Event.startMetrics] }

/-! ## Environment defaults of the flags -/

/-- The value of a decimal digit, `none` for any other byte. -/
def digitVal (c : Char) : Option Nat :=
  if '0' ≤ c ∧ c ≤ '9' then some (c.toNat - '0'.toNat) else none

/-- The unsigned decimal number written by a list of digits (`n` is the value read
so far); `none` when a byte is not a digit. -/
def parseDigits : List Char → Nat → Option Nat
  | [], n => some n
  | c :: cs, n =>
    match digitVal c with
    | some d => parseDigits cs (n * 10 + d)
    | none => none

/-- Go's `strconv.Atoi` for a 64-bit `int`: an optional sign followed by one or more
decimal digits, the value within the range of `int`; `none` stands for the error. -/
def atoi (s : String) : Option Int :=
  let neg : Bool := s.data.head? = some '-'
  let digits :=
    if s.data.head? = some '-' ∨ s.data.head? = some '+' then s.data.tail else s.data
  if digits = [] then none
  else
    match parseDigits digits 0 with
    | none => none
    | some n =>
      if neg then
        if n ≤ 9223372036854775808 then some (-(n : Int)) else none
      else
        if n < 9223372036854775808 then some (n : Int) else none

/-- Go's `os.Getenv` over an environment given as a list of bindings: the empty
string when the variable is not set. -/
def getenv (env : List (String × String)) (key : String) : String :=
  match env.find? (fun kv => kv.1 = key) with
  | some kv => kv.2
  | none => ""

/-- The function `envString` of `main.go`. -/
def envString (env : List (String × String)) (key def_ : String) : String :=
  if getenv env key ≠ "" then getenv env key else def_

/-- The function `envInt` of `main.go` (its log line is not part of the result). -/
def envInt (env : List (String × String)) (key : String) (def_ : Int) : Int :=
  if getenv env key ≠ "" then
    match atoi (getenv env key) with
    | none => def_
    | some val => val
  else def_

/-- The default of the flag `-wait`: `envInt("GIT_SYNC_WAIT", 0)`. -/
def flWaitDefault (env : List (String × String)) : Int :=
  envInt env "GIT_SYNC_WAIT" 0

/-! ## A scripted world for concrete runs -/

/-- A world that answers from a script: the error of the next stat, the error of
`exec.LookPath`, and the results of the commands still to come. -/
structure Script where
  statErr : Option OsError
  lookErr : Option String
  results : List CmdResult
  deriving DecidableEq, Repr

/-- The system calls over a scripted world; once a command has run, the next stat
succeeds. Quoting puts the text between double quotes. -/
def scriptSys : Sys Script where
  stat w _ := w.statErr
  run w _ :=
    match w.results with
    | [] => (⟨"", none⟩, { w with statErr := none })
    | r :: rs => (r, { w with statErr := none, results := rs })
  lookPath w _ := w.lookErr
  quote s := "\"" ++ s ++ "\""

/-! ## The external tools: a model of `git` and `chmod`

The executables are not part of the repository. The model below follows what the
specification says of the four operations the core requires of them, read with the
meaning the names have in git: a mirror has a checked-out local branch (`HEAD`), the
remote-tracking references of `origin`, `FETCH_HEAD`, an index and a working tree.
Directories without metadata are taken to be absent or empty, and every commit of
the history is taken to be available to every mirror. -/

/-- Modelled from the spec: a file of the "working tree content and permission bits"
of destinationPath (section 4.1, Guarantee), kept by the file system, which is not
under `src/`: its path, its content and its permission bits. -/
structure File where
  path : String
  content : String
  mode : Nat
  deriving DecidableEq, Repr

/-- Modelled from the spec: a point of the history of a repository (glossary,
"Revision: a specific point in the repository's history"); the external tool that
stores it is not under `src/`. A commit has a parent, if any, and the tracked files
of its tree (path and content). -/
structure Commit where
  parent : Option String
  tree : List (String × String)
  deriving DecidableEq, Repr

/-- Modelled from the spec: the "version-control metadata subdirectory under
destinationPath" together with the working tree it governs (section 3, MirrorState);
the external tool that maintains it is not under `src/`. `head` is the commit of
the checked-out local branch `branch`, `tracking` the remote-tracking references
`origin/<name>`, `index` the tracked paths, `files` the working tree. -/
structure Mirror where
  origin : String
  branch : String
  head : String
  tracking : String → Option String
  fetchHead : Option String
  index : List String
  files : List File

/-- Modelled from the spec: the state the external tools act on, which is not under
`src/`: the commits by identifier, the head of each branch of each remote
repository (by URL and branch), and the mirrors by the path of their metadata
directory. -/
structure GitWorld where
  commits : String → Option Commit
  remote : String → String → Option String
  mirrors : String → Option Mirror

/-- Modelled from the spec: the state of the external tools, which is not under
`src/`, with the mirror whose metadata directory is `key` replaced by `m`. -/
def GitWorld.setMirror (w : GitWorld) (key : String) (m : Mirror) : GitWorld :=
  { w with mirrors := fun k => if k = key then some m else w.mirrors k }

/-- Modelled from the spec: the meaning of a revision name without ancestry suffix
("a symbolic ref like a branch head marker, or a fixed content-addressed
identifier", section 4.1 step 3), resolved by the external tool inside the mirror:
`HEAD` and the name of the checked-out branch are the local head, `FETCH_HEAD` is
what the last fetch retrieved, `origin/<name>` is a remote-tracking reference, and
any other name is the identifier of a commit. -/
def resolveName (commits : String → Option Commit) (m : Mirror) (name : String) :
    Option String :=
  if name = "HEAD" then some m.head
  else if name = "FETCH_HEAD" then m.fetchHead
  else if name = m.branch then some m.head
  else if name.data.take 7 = "origin/".data then m.tracking (String.mk (name.data.drop 7))
  else if (commits name).isSome then some name
  else none

/-- Modelled from the spec: resolution of a revision by the external tool, which is
not under `src/`; the revision is read from its last character: a final `^` is the
parent of the revision before it. -/
def resolveRev (commits : String → Option Commit) (m : Mirror) :
    List Char → Option String
  | [] => resolveName commits m ""
  | c :: rest =>
    if c = '^' then
      match resolveRev commits m rest with
      | some id =>
        match commits id with
        | some commit => commit.parent
        | none => none
      | none => none
    else resolveName commits m (String.mk (c :: rest).reverse)

/-- Modelled from the spec: resolution of a revision by the external tool, which is
not under `src/`: the commit identifier that `rev` names inside the mirror `m`. -/
def resolve (commits : String → Option Commit) (m : Mirror) (rev : String) :
    Option String :=
  resolveRev commits m rev.data.reverse

/-- Modelled from the spec: "clone-without-checkout of a branch" (section 6), "a full
clone of sourceURL at branch into destinationPath, without checking out a working
tree" (section 4.1 step 1), done by the external tool. It fails when the destination
holds a mirror already or the remote has no such branch. -/
def gitClone (w : GitWorld) (branch repo dest : String) : CmdResult × GitWorld :=
  let key := pathJoin [dest, ".git"]
  match w.mirrors key with
  | some _ => (⟨"fatal: destination path already exists\n", some "exit status 128"⟩, w)
  | none =>
    match w.remote repo branch with
    | none => (⟨"fatal: Remote branch not found in upstream origin\n",
        some "exit status 128"⟩, w)
    | some c =>
      (⟨"Cloning into " ++ dest ++ "...\n", none⟩,
        w.setMirror key
          { origin := repo, branch := branch, head := c, tracking := w.remote repo,
            fetchHead := none, index := [], files := [] })

/-- Modelled from the spec: the effect of a fetch by the external tool, which is not
under `src/`, on the mirror `m` when the branch `branch` of the remote is at the
commit `c`: `FETCH_HEAD` and "the local mirror's tracking reference" name it. -/
def fetched (m : Mirror) (branch c : String) : Mirror :=
  { m with
    fetchHead := some c
    tracking := fun b => if b = branch then some c else m.tracking b }

/-- Modelled from the spec: "fetch of a named branch from a named remote" (section
6), "retrieve the latest state of branch from the remote into the local mirror's
tracking reference" (section 4.1 step 2), done by the external tool in the
directory `dir`. Neither the local branch nor the working tree is touched. -/
def gitFetch (w : GitWorld) (dir branch : String) : CmdResult × GitWorld :=
  let key := pathJoin [dir, ".git"]
  match w.mirrors key with
  | none => (⟨"fatal: not a git repository\n", some "exit status 128"⟩, w)
  | some m =>
    match w.remote m.origin branch with
    | none => (⟨"fatal: could not find remote ref\n", some "exit status 128"⟩, w)
    | some c =>
      (⟨"From " ++ m.origin ++ "\n", none⟩, w.setMirror key (fetched m branch c))

/-- Modelled from the spec: the working tree that "exactly matches" a commit, as the
external tool writes it (not under `src/`): its tracked files, with mode 0644. -/
def checkout (c : Commit) : List File :=
  c.tree.map (fun pc => ⟨pc.1, pc.2, 420⟩)

/-- Modelled from the spec: "full overwrite semantics for tracked files" (section 8)
of the reset done by the external tool (not under `src/`): the files of a working
tree that a reset leaves alone are those that are neither in the index nor written
by the commit. -/
def untracked (m : Mirror) (c : Commit) : List File :=
  m.files.filter (fun f => decide (f.path ∉ m.index ∧ f.path ∉ c.tree.map Prod.fst))

/-- Modelled from the spec: the effect on the mirror `m` of a forced reset, by the
external tool (not under `src/`), to the commit `c` of identifier `id`. -/
def reseted (m : Mirror) (id : String) (c : Commit) : Mirror :=
  { m with
    head := id
    index := c.tree.map Prod.fst
    files := checkout c ++ untracked m c }

/-- Modelled from the spec: "forced reset of a working tree to a named revision"
(section 6), "force the working tree to exactly match revision ..., discarding any
local modifications unconditionally" (section 4.1 step 3), done by the external tool
in the directory `dir`: the local branch moves to the commit the revision names,
the tracked files are replaced by those of the commit, untracked files stay. -/
def gitReset (w : GitWorld) (dir rev : String) : CmdResult × GitWorld :=
  let key := pathJoin [dir, ".git"]
  match w.mirrors key with
  | none => (⟨"fatal: not a git repository\n", some "exit status 128"⟩, w)
  | some m =>
    match resolve w.commits m rev with
    | none => (⟨"fatal: ambiguous argument: unknown revision\n", some "exit status 128"⟩, w)
    | some id =>
      match w.commits id with
      | none => (⟨"fatal: could not parse object\n", some "exit status 128"⟩, w)
      | some c =>
        (⟨"HEAD is now at " ++ id ++ "\n", none⟩, w.setMirror key (reseted m id c))

/-- Modelled from the spec: how the operating system, which is not under `src/`,
reads a path argument of a command run in `dir`: the path itself when it is
absolute or `dir` is empty, the path below `dir` otherwise. -/
def target (dir path : String) : String :=
  if path.data.head? = some '/' ∨ dir = "" then path else pathJoin [dir, path]

/-- Modelled from the spec: the "fixed permission mode" of section 4.1 step 4, set
by the external tool `chmod`, which is not under `src/`: the file `f` with the
permission bits 0755. -/
def setMode (f : File) : File :=
  { f with mode := 493 }

/-- Modelled from the spec: the effect of the permission step of the external tool
`chmod` (not under `src/`) on the mirror `m`: every file of its tree has the mode
0755. -/
def chmodded (m : Mirror) : Mirror :=
  { m with files := m.files.map setMode }

/-- Modelled from the spec: "recursive permission normalization of a directory tree"
(section 6), "recursively set a fixed permission mode on the entire destination
tree" (section 4.1 step 4), done by the external tool `chmod -R 755` run in the
directory `dir` on the path `path`. -/
def chmodTree (w : GitWorld) (dir path : String) : CmdResult × GitWorld :=
  let key := pathJoin [target dir path, ".git"]
  match w.mirrors key with
  | none => (⟨"chmod: cannot access: No such file or directory\n", some "exit status 1"⟩, w)
  | some m =>
    (⟨"", none⟩, w.setMirror key (chmodded m))

/-- Modelled from the spec: the "single external executable capability" of section 6,
which is not under `src/`: the four command lines that `syncRepo` builds, run on
the model; any other command line fails. -/
def gitRun (w : GitWorld) (c : Cmd) : CmdResult × GitWorld :=
  match c.args with
  | ["git", "clone", "--no-checkout", "-b", branch, repo, dest] =>
    gitClone w branch repo (target c.dir dest)
  | ["git", "fetch", "origin", branch] => gitFetch w c.dir branch
  | ["git", "reset", "--hard", rev] => gitReset w c.dir rev
  | ["chmod", "-R", "755", path] => chmodTree w c.dir path
  | _ => (⟨"command not found\n", some "exit status 127"⟩, w)

/-- Modelled from the spec: the operating system over the model, which is not under
`src/`: the stat of a metadata directory succeeds when a mirror is there ("presence
of a version-control metadata subdirectory", section 3) and reports not-exist
otherwise; quoting puts the text between double quotes. -/
def gitSys : Sys GitWorld where
  stat w p :=
    match w.mirrors p with
    | some _ => none
    | none => some ⟨"stat " ++ p ++ ": no such file or directory", true⟩
  run := gitRun
  lookPath _ _ := none
  quote s := "\"" ++ s ++ "\""

/-- Modelled from the spec: "destinationPath's working tree content and permission
bits" (section 4.1, Guarantee) in the model of the file system, which is not under
`src/`: the files at `dest`, none when `dest` holds no mirror. -/
def filesAt (w : GitWorld) (dest : String) : List File :=
  match w.mirrors (pathJoin [dest, ".git"]) with
  | some m => m.files
  | none => []

/-- A history of three commits, each changing the file `README`. -/
def history (id : String) : Option Commit :=
  if id = "c0" then some ⟨none, [("README", "v0")]⟩
  else if id = "c1" then some ⟨some "c0", [("README", "v1")]⟩
  else if id = "c2" then some ⟨some "c1", [("README", "v2")]⟩
  else none

/-- A world without mirrors in which the branch `main` of the example repository is
at the commit `headId`. -/
def remoteAt (headId : String) : GitWorld where
  commits := history
  remote url branch :=
    if url = "https://example/repo.git" ∧ branch = "main" then some headId else none
  mirrors _ := none

/-- The world `w` after the branch `main` of the example repository has advanced to
the commit `headId`. -/
def advance (w : GitWorld) (headId : String) : GitWorld :=
  { w with remote := (remoteAt headId).remote }

/-- The text `s` contains the text `t` as a contiguous part. -/
def Contains (s t : String) : Prop := t.data <:+: s.data

instance (s t : String) : Decidable (Contains s t) := by
  unfold Contains; infer_instance

/-- A command that is `git clone`. -/
def isClone (c : Cmd) : Bool := c.args.take 2 == ["git", "clone"]

/-- Every command of the list succeeded. -/
def AllOk (cs : List (Cmd × CmdResult)) : Prop := ∀ p ∈ cs, p.2.err = none

/-- The error text `msg` describes the failed command `c` with result `res` and exit
error `e`: it contains the quoted command line, the text of the exit error and the
complete combined output. -/
def Describes {σ : Type} (sys : Sys σ) (msg : String) (c : Cmd) (e : String)
    (res : CmdResult) : Prop :=
  Contains msg (sys.quote (stringsJoin c.args " ")) ∧ Contains msg e ∧
    Contains msg res.output

/-- What holds of a run of the command steps: only the last command can have failed,
the run returns `nil` exactly when every command succeeded, and the error of a run
describes the command that failed. -/
structure StepInv {σ : Type} (sys : Sys σ) (r : Run σ) : Prop where
  init : AllOk (cmdsOf r.events).dropLast
  nil_iff : r.err = none ↔ AllOk (cmdsOf r.events)
  descr : ∀ c res e, (c, res) ∈ cmdsOf r.events → res.err = some e →
    ∃ msg, r.err = some msg ∧ Describes sys msg c e res

/-- The events that mark the rounds of the loop: the call of `syncRepo`, its return
and the sleep. -/
def isLoopEvent : Event → Bool
  | Event.call _ _ _ _ => true
  | Event.ret _ => true
  | Event.sleep _ => true
  | _ => false

/-- The loop events of one round that returned `err`. -/
def roundEvents (cfg : Config) (err : Option String) : List Event :=
  [Event.call cfg.repo cfg.dest cfg.branch cfg.rev, Event.ret err,
    Event.sleep (sleepDuration cfg.wait)]

/-! ## Lemmas on the steps of `syncRepo` -/

section Steps
variable {σ : Type}

@[simp] theorem cmdsOf_append (xs ys : List Event) :
    cmdsOf (xs ++ ys) = cmdsOf xs ++ cmdsOf ys := by
  induction xs with
  | nil => rfl
  | cons x xs ih => cases x <;> simp [cmdsOf, ih]

theorem contains_mid (a t b : String) : Contains (a ++ t ++ b) t := by
  refine ⟨a.data, b.data, ?_⟩
  simp [String.data_append]

theorem contains_end (a t : String) : Contains (a ++ t) t := by
  refine ⟨a.data, [], ?_⟩
  simp [String.data_append]

theorem syncChmod_fail (sys : Sys σ) (dest : String) (w : σ) (evs : List Event) (e : String)
    (h : (sys.run w (chmodCmd dest)).1.err = some e) :
    syncChmod sys dest w evs =
      ⟨some (runError sys (chmodCmd dest) e (sys.run w (chmodCmd dest)).1.output),
        evs ++ [Event.exec (chmodCmd dest) (sys.run w (chmodCmd dest)).1],
        (sys.run w (chmodCmd dest)).2⟩ := by
  simp only [syncChmod, h]

theorem syncChmod_ok (sys : Sys σ) (dest : String) (w : σ) (evs : List Event)
    (h : (sys.run w (chmodCmd dest)).1.err = none) :
    syncChmod sys dest w evs =
      ⟨none, evs ++ [Event.exec (chmodCmd dest) (sys.run w (chmodCmd dest)).1],
        (sys.run w (chmodCmd dest)).2⟩ := by
  simp only [syncChmod, h]

theorem syncReset_fail (sys : Sys σ) (dest rev : String) (w : σ) (evs : List Event)
    (e : String) (h : (sys.run w (resetCmd dest rev)).1.err = some e) :
    syncReset sys dest rev w evs =
      ⟨some (runError sys (resetCmd dest rev) e (sys.run w (resetCmd dest rev)).1.output),
        evs ++ [Event.exec (resetCmd dest rev) (sys.run w (resetCmd dest rev)).1],
        (sys.run w (resetCmd dest rev)).2⟩ := by
  simp only [syncReset, h]

theorem syncReset_ok (sys : Sys σ) (dest rev : String) (w : σ) (evs : List Event)
    (h : (sys.run w (resetCmd dest rev)).1.err = none) :
    syncReset sys dest rev w evs =
      syncChmod sys dest (sys.run w (resetCmd dest rev)).2
        (evs ++ [Event.exec (resetCmd dest rev) (sys.run w (resetCmd dest rev)).1,
          Event.log ("reset " ++ sys.quote rev ++ ": " ++
            (sys.run w (resetCmd dest rev)).1.output)]) := by
  simp only [syncReset, h]

theorem syncFetch_fail (sys : Sys σ) (dest branch rev : String) (w : σ) (evs : List Event)
    (e : String) (h : (sys.run w (fetchCmd dest branch)).1.err = some e) :
    syncFetch sys dest branch rev w evs =
      ⟨some (fetchError sys (fetchCmd dest branch) e
          (sys.run w (fetchCmd dest branch)).1.output),
        evs ++ [Event.exec (fetchCmd dest branch) (sys.run w (fetchCmd dest branch)).1],
        (sys.run w (fetchCmd dest branch)).2⟩ := by
  simp only [syncFetch, h]

theorem syncFetch_ok (sys : Sys σ) (dest branch rev : String) (w : σ) (evs : List Event)
    (h : (sys.run w (fetchCmd dest branch)).1.err = none) :
    syncFetch sys dest branch rev w evs =
      syncReset sys dest rev (sys.run w (fetchCmd dest branch)).2
        (evs ++ [Event.exec (fetchCmd dest branch) (sys.run w (fetchCmd dest branch)).1,
          Event.log ("fetch " ++ sys.quote branch ++ ": " ++
            (sys.run w (fetchCmd dest branch)).1.output)]) := by
  simp only [syncFetch, h]

theorem syncRepo_exists (sys : Sys σ) (repo dest branch rev : String) (w : σ)
    (h : sys.stat w (pathJoin [dest, ".git"]) = none) :
    syncRepo sys repo dest branch rev w =
      syncFetch sys dest branch rev w [Event.stat (pathJoin [dest, ".git"]) none] := by
  simp only [syncRepo, h, isNotExist]
  rfl

theorem syncRepo_statFail (sys : Sys σ) (repo dest branch rev : String) (w : σ)
    (e : OsError) (h : sys.stat w (pathJoin [dest, ".git"]) = some e)
    (hne : e.notExist = false) :
    syncRepo sys repo dest branch rev w =
      ⟨some (statError sys (pathJoin [dest, ".git"]) e.msg),
        [Event.stat (pathJoin [dest, ".git"]) (some e)], w⟩ := by
  simp only [syncRepo, h, isNotExist, hne]
  rfl

theorem syncRepo_cloneFail (sys : Sys σ) (repo dest branch rev : String) (w : σ)
    (e : OsError) (h : sys.stat w (pathJoin [dest, ".git"]) = some e)
    (hne : e.notExist = true) (e1 : String)
    (h1 : (sys.run w (cloneCmd repo dest branch)).1.err = some e1) :
    syncRepo sys repo dest branch rev w =
      ⟨some (cloneError sys (cloneCmd repo dest branch) e1
          (sys.run w (cloneCmd repo dest branch)).1.output),
        [Event.stat (pathJoin [dest, ".git"]) (some e),
          Event.exec (cloneCmd repo dest branch) (sys.run w (cloneCmd repo dest branch)).1],
        (sys.run w (cloneCmd repo dest branch)).2⟩ := by
  simp only [syncRepo, h, isNotExist, hne, h1]
  rfl

theorem syncRepo_cloneOk (sys : Sys σ) (repo dest branch rev : String) (w : σ)
    (e : OsError) (h : sys.stat w (pathJoin [dest, ".git"]) = some e)
    (hne : e.notExist = true)
    (h1 : (sys.run w (cloneCmd repo dest branch)).1.err = none) :
    syncRepo sys repo dest branch rev w =
      syncFetch sys dest branch rev (sys.run w (cloneCmd repo dest branch)).2
        [Event.stat (pathJoin [dest, ".git"]) (some e),
          Event.exec (cloneCmd repo dest branch) (sys.run w (cloneCmd repo dest branch)).1,
          Event.log ("clone " ++ sys.quote repo ++ ": " ++
            (sys.run w (cloneCmd repo dest branch)).1.output)] := by
  simp only [syncRepo, h, isNotExist, hne, h1]
  rfl

end Steps

/-! ## The step invariant -/

section Invariant
variable {σ : Type}

theorem allOk_snoc (cs : List (Cmd × CmdResult)) (c : Cmd) (r : CmdResult)
    (h : AllOk cs) (hr : r.err = none) : AllOk (cs ++ [(c, r)]) := by
  intro p hp
  rcases List.mem_append.1 hp with hp | hp
  · exact h p hp
  · simp only [List.mem_singleton] at hp
    subst hp
    exact hr

theorem runError_describes (sys : Sys σ) (c : Cmd) (e : String) (res : CmdResult) :
    Describes sys (runError sys c e res.output) c e res := by
  refine ⟨?_, ?_, ?_⟩
  · have := contains_mid "error running command " (sys.quote (stringsJoin c.args " "))
      (" : " ++ e ++ ": " ++ res.output)
    simpa [runError, String.append_assoc] using this
  · have := contains_mid ("error running command " ++ sys.quote (stringsJoin c.args " ")
      ++ " : ") e (": " ++ res.output)
    simpa [runError, String.append_assoc] using this
  · exact contains_end _ _

theorem fetchError_describes (sys : Sys σ) (c : Cmd) (e : String) (res : CmdResult) :
    Describes sys (fetchError sys c e res.output) c e res := by
  refine ⟨?_, ?_, ?_⟩
  · have := contains_mid "error running command " (sys.quote (stringsJoin c.args " "))
      (": " ++ e ++ ": " ++ res.output)
    simpa [fetchError, String.append_assoc] using this
  · have := contains_mid ("error running command " ++ sys.quote (stringsJoin c.args " ")
      ++ ": ") e (": " ++ res.output)
    simpa [fetchError, String.append_assoc] using this
  · exact contains_end _ _

theorem cloneError_describes (sys : Sys σ) (c : Cmd) (e : String) (res : CmdResult) :
    Describes sys (cloneError sys c e res.output) c e res := by
  refine ⟨?_, ?_, ?_⟩
  · have := contains_mid "error cloning repo " (sys.quote (stringsJoin c.args " "))
      (": " ++ e ++ ": " ++ res.output)
    simpa [cloneError, String.append_assoc] using this
  · have := contains_mid ("error cloning repo " ++ sys.quote (stringsJoin c.args " ")
      ++ ": ") e (": " ++ res.output)
    simpa [cloneError, String.append_assoc] using this
  · exact contains_end _ _

/-- A run that ends with a failed command after a prefix of successful ones. -/
theorem stepInv_fail (sys : Sys σ) (evs : List Event) (c : Cmd) (res : CmdResult)
    (e msg : String) (w : σ) (hevs : AllOk (cmdsOf evs)) (he : res.err = some e)
    (hd : Describes sys msg c e res) :
    StepInv sys ⟨some msg, evs ++ [Event.exec c res], w⟩ := by
  have hc : cmdsOf (evs ++ [Event.exec c res]) = cmdsOf evs ++ [(c, res)] := by
    simp [cmdsOf]
  refine ⟨?_, ?_, ?_⟩
  · simp only [hc, List.dropLast_concat]
    exact hevs
  · simp only [hc]
    constructor
    · intro h; cases h
    · intro h
      have := h (c, res) (by simp)
      simp [he] at this
  · intro c' res' e' hmem he'
    simp only [hc] at hmem
    rcases List.mem_append.1 hmem with hm | hm
    · have := hevs _ hm
      simp [he'] at this
    · simp only [List.mem_singleton, Prod.mk.injEq] at hm
      obtain ⟨rfl, rfl⟩ := hm
      have : e' = e := by
        rw [he] at he'
        exact (Option.some.inj he').symm
      subst this
      exact ⟨msg, rfl, hd⟩

/-- A run in which every command succeeded. -/
theorem stepInv_ok (sys : Sys σ) (evs : List Event) (w : σ) (hevs : AllOk (cmdsOf evs)) :
    StepInv sys ⟨none, evs, w⟩ := by
  refine ⟨?_, ?_, ?_⟩
  · intro p hp
    exact hevs p (List.mem_of_mem_dropLast hp)
  · exact ⟨fun _ => hevs, fun _ => rfl⟩
  · intro c res e hmem he
    have := hevs _ hmem
    simp [he] at this

theorem syncChmod_inv (sys : Sys σ) (dest : String) (w : σ) (evs : List Event)
    (hevs : AllOk (cmdsOf evs)) : StepInv sys (syncChmod sys dest w evs) := by
  cases h : (sys.run w (chmodCmd dest)).1.err with
  | some e =>
    rw [syncChmod_fail sys dest w evs e h]
    exact stepInv_fail sys evs _ _ e _ _ hevs h (runError_describes sys _ e _)
  | none =>
    rw [syncChmod_ok sys dest w evs h]
    apply stepInv_ok
    simpa [cmdsOf] using allOk_snoc _ (chmodCmd dest) _ hevs h

theorem syncReset_inv (sys : Sys σ) (dest rev : String) (w : σ) (evs : List Event)
    (hevs : AllOk (cmdsOf evs)) : StepInv sys (syncReset sys dest rev w evs) := by
  cases h : (sys.run w (resetCmd dest rev)).1.err with
  | some e =>
    rw [syncReset_fail sys dest rev w evs e h]
    exact stepInv_fail sys evs _ _ e _ _ hevs h (runError_describes sys _ e _)
  | none =>
    rw [syncReset_ok sys dest rev w evs h]
    apply syncChmod_inv
    simpa [cmdsOf] using allOk_snoc _ (resetCmd dest rev) _ hevs h

theorem syncFetch_inv (sys : Sys σ) (dest branch rev : String) (w : σ) (evs : List Event)
    (hevs : AllOk (cmdsOf evs)) : StepInv sys (syncFetch sys dest branch rev w evs) := by
  cases h : (sys.run w (fetchCmd dest branch)).1.err with
  | some e =>
    rw [syncFetch_fail sys dest branch rev w evs e h]
    exact stepInv_fail sys evs _ _ e _ _ hevs h (fetchError_describes sys _ e _)
  | none =>
    rw [syncFetch_ok sys dest branch rev w evs h]
    apply syncReset_inv
    simpa [cmdsOf] using allOk_snoc _ (fetchCmd dest branch) _ hevs h

/-- The step invariant holds of every call of `syncRepo` whose stat did not fail. -/
theorem syncRepo_inv (sys : Sys σ) (repo dest branch rev : String) (w : σ)
    (hst : sys.stat w (pathJoin [dest, ".git"]) = none ∨
      isNotExist (sys.stat w (pathJoin [dest, ".git"])) = true) :
    StepInv sys (syncRepo sys repo dest branch rev w) := by
  cases hs : sys.stat w (pathJoin [dest, ".git"]) with
  | none =>
    rw [syncRepo_exists sys repo dest branch rev w hs]
    apply syncFetch_inv
    intro p hp
    simp [cmdsOf] at hp
  | some e =>
    have hne : e.notExist = true := by
      rcases hst with h | h
      · rw [hs] at h; cases h
      · rw [hs] at h; exact h
    cases h1 : (sys.run w (cloneCmd repo dest branch)).1.err with
    | some e1 =>
      rw [syncRepo_cloneFail sys repo dest branch rev w e hs hne e1 h1]
      have := stepInv_fail sys [Event.stat (pathJoin [dest, ".git"]) (some e)]
        (cloneCmd repo dest branch) _ e1 _ (sys.run w (cloneCmd repo dest branch)).2
        (by intro p hp; simp [cmdsOf] at hp) h1 (cloneError_describes sys _ e1 _)
      simpa using this
    | none =>
      rw [syncRepo_cloneOk sys repo dest branch rev w e hs hne h1]
      apply syncFetch_inv
      intro p hp
      simp only [cmdsOf, List.mem_singleton] at hp
      subst hp
      exact h1

end Invariant

/-! ## The commands of a run -/

section Sequence
variable {σ : Type}

theorem mem_dropLast_of_lt {α : Type} (l : List α) (k : Nat) (x : α)
    (hk : l[k]? = some x) (hlt : k + 1 < l.length) : x ∈ l.dropLast := by
  induction l generalizing k with
  | nil => simp at hk
  | cons a t ih =>
    cases t with
    | nil => simp at hlt
    | cons b t =>
      cases k with
      | zero =>
        simp at hk
        subst hk
        simp [List.dropLast]
      | succ k =>
        simp only [List.getElem?_cons_succ] at hk
        have := ih k hk (by simpa using hlt)
        simp only [List.dropLast_cons₂, List.mem_cons]
        exact Or.inr this

/-- From the step invariant: a failed command is the last one and fails the run. -/
theorem stepInv_short_circuit (sys : Sys σ) (r : Run σ) (hinv : StepInv sys r)
    (k : Nat) (c : Cmd) (res : CmdResult)
    (hk : (cmdsOf r.events)[k]? = some (c, res)) (herr : res.err ≠ none) :
    r.err ≠ none ∧ (cmdsOf r.events).length = k + 1 := by
  have hmem : (c, res) ∈ cmdsOf r.events := List.getElem?_mem hk
  have hlt : k < (cmdsOf r.events).length := by
    by_contra hge
    rw [List.getElem?_eq_none (Nat.le_of_not_lt hge)] at hk
    cases hk
  constructor
  · intro hnil
    exact herr (hinv.nil_iff.1 hnil _ hmem)
  · by_contra hne
    have hlt2 : k + 1 < (cmdsOf r.events).length := by omega
    exact herr (hinv.init _ (mem_dropLast_of_lt _ k _ hk hlt2))

/-- The commands of the steps from the fetch on, when the run returns `nil`. -/
theorem syncFetch_names (sys : Sys σ) (dest branch rev : String) (w : σ) (evs : List Event)
    (hnil : (syncFetch sys dest branch rev w evs).err = none) :
    (cmdsOf (syncFetch sys dest branch rev w evs).events).map Prod.fst =
      (cmdsOf evs).map Prod.fst ++ [fetchCmd dest branch, resetCmd dest rev, chmodCmd dest] := by
  revert hnil
  cases h : (sys.run w (fetchCmd dest branch)).1.err with
  | some e =>
    rw [syncFetch_fail sys dest branch rev w evs e h]
    intro hnil; cases hnil
  | none =>
    rw [syncFetch_ok sys dest branch rev w evs h]
    cases h2 : (sys.run (sys.run w (fetchCmd dest branch)).2 (resetCmd dest rev)).1.err with
    | some e =>
      rw [syncReset_fail sys dest rev _ _ e h2]
      intro hnil; cases hnil
    | none =>
      rw [syncReset_ok sys dest rev _ _ h2]
      cases h3 : (sys.run (sys.run (sys.run w (fetchCmd dest branch)).2
          (resetCmd dest rev)).2 (chmodCmd dest)).1.err with
      | some e =>
        rw [syncChmod_fail sys dest _ _ e h3]
        intro hnil; cases hnil
      | none =>
        rw [syncChmod_ok sys dest _ _ h3]
        intro _
        simp [cmdsOf]

/-- The steps from the fetch on keep the events before them and run the fetch first. -/
theorem syncFetch_events (sys : Sys σ) (dest branch rev : String) (w : σ)
    (evs : List Event) :
    ∃ rest, (syncFetch sys dest branch rev w evs).events =
      evs ++ Event.exec (fetchCmd dest branch) (sys.run w (fetchCmd dest branch)).1 :: rest := by
  cases h : (sys.run w (fetchCmd dest branch)).1.err with
  | some e =>
    rw [syncFetch_fail sys dest branch rev w evs e h]
    exact ⟨[], rfl⟩
  | none =>
    rw [syncFetch_ok sys dest branch rev w evs h]
    cases h2 : (sys.run (sys.run w (fetchCmd dest branch)).2 (resetCmd dest rev)).1.err with
    | some e =>
      rw [syncReset_fail sys dest rev _ _ e h2]
      exact ⟨_, by simp only [List.append_assoc]; rfl⟩
    | none =>
      rw [syncReset_ok sys dest rev _ _ h2]
      cases h3 : (sys.run (sys.run (sys.run w (fetchCmd dest branch)).2
          (resetCmd dest rev)).2 (chmodCmd dest)).1.err with
      | some e =>
        rw [syncChmod_fail sys dest _ _ e h3]
        exact ⟨_, by simp only [List.append_assoc]; rfl⟩
      | none =>
        rw [syncChmod_ok sys dest _ _ h3]
        exact ⟨_, by simp only [List.append_assoc]; rfl⟩

/-- The steps from the fetch on run no `git clone`. -/
theorem syncFetch_noClone (sys : Sys σ) (dest branch rev : String) (w : σ)
    (evs : List Event) (hevs : ∀ p ∈ cmdsOf evs, isClone p.1 = false) :
    ∀ p ∈ cmdsOf (syncFetch sys dest branch rev w evs).events, isClone p.1 = false := by
  have hf : isClone (fetchCmd dest branch) = false := by
    simp [isClone, fetchCmd, command]
  have hr : isClone (resetCmd dest rev) = false := by
    simp [isClone, resetCmd, command]
  have hc : isClone (chmodCmd dest) = false := by
    simp [isClone, chmodCmd, command]
  cases h : (sys.run w (fetchCmd dest branch)).1.err with
  | some e =>
    rw [syncFetch_fail sys dest branch rev w evs e h]
    intro p hp
    simp only [cmdsOf_append, cmdsOf, List.mem_append, List.mem_singleton] at hp
    rcases hp with hp | rfl
    · exact hevs p hp
    · exact hf
  | none =>
    rw [syncFetch_ok sys dest branch rev w evs h]
    cases h2 : (sys.run (sys.run w (fetchCmd dest branch)).2 (resetCmd dest rev)).1.err with
    | some e =>
      rw [syncReset_fail sys dest rev _ _ e h2]
      intro p hp
      simp only [cmdsOf_append, cmdsOf, List.mem_append, List.mem_singleton,
        List.mem_cons, List.not_mem_nil, or_false] at hp
      rcases hp with (hp | rfl) | rfl
      · exact hevs p hp
      · exact hf
      · exact hr
    | none =>
      rw [syncReset_ok sys dest rev _ _ h2]
      have hev : ∀ q, q ∈ cmdsOf (syncChmod sys dest
          (sys.run (sys.run w (fetchCmd dest branch)).2 (resetCmd dest rev)).2
          ((evs ++ [Event.exec (fetchCmd dest branch) (sys.run w (fetchCmd dest branch)).1,
            Event.log ("fetch " ++ sys.quote branch ++ ": " ++
              (sys.run w (fetchCmd dest branch)).1.output)]) ++
            [Event.exec (resetCmd dest rev)
              (sys.run (sys.run w (fetchCmd dest branch)).2 (resetCmd dest rev)).1,
            Event.log ("reset " ++ sys.quote rev ++ ": " ++
              (sys.run (sys.run w (fetchCmd dest branch)).2 (resetCmd dest rev)).1.output)])).events →
          q ∈ cmdsOf evs ∨ q.1 = fetchCmd dest branch ∨ q.1 = resetCmd dest rev ∨
            q.1 = chmodCmd dest := by
        intro q hq
        cases h3 : (sys.run (sys.run (sys.run w (fetchCmd dest branch)).2
            (resetCmd dest rev)).2 (chmodCmd dest)).1.err with
        | some e =>
          rw [syncChmod_fail sys dest _ _ e h3] at hq
          simp only [cmdsOf_append, cmdsOf, List.mem_append, List.mem_singleton,
            List.mem_cons, List.not_mem_nil, or_false] at hq
          rcases hq with ((hq | rfl) | rfl) | rfl
          · exact Or.inl hq
          · exact Or.inr (Or.inl rfl)
          · exact Or.inr (Or.inr (Or.inl rfl))
          · exact Or.inr (Or.inr (Or.inr rfl))
        | none =>
          rw [syncChmod_ok sys dest _ _ h3] at hq
          simp only [cmdsOf_append, cmdsOf, List.mem_append, List.mem_singleton,
            List.mem_cons, List.not_mem_nil, or_false] at hq
          rcases hq with ((hq | rfl) | rfl) | rfl
          · exact Or.inl hq
          · exact Or.inr (Or.inl rfl)
          · exact Or.inr (Or.inr (Or.inl rfl))
          · exact Or.inr (Or.inr (Or.inr rfl))
      intro p hp
      rcases hev p hp with hp | hp | hp | hp
      · exact hevs p hp
      · rw [hp]; exact hf
      · rw [hp]; exact hr
      · rw [hp]; exact hc

end Sequence

/-! ## Claims on `syncRepo` -/

section SyncClaims
variable {σ : Type}

theorem statError_ne_cloneError (sys : Sys σ) (p e : String) (c : Cmd) (e1 out : String) :
    statError sys p e ≠ cloneError sys c e1 out := by
  intro h
  have h2 := congrArg (fun s => s.data.take 8) h
  simp [statError, cloneError, String.data_append] at h2

/-- The first command of a call whose stat reported not-exist is the clone. -/
theorem syncRepo_head_clone (sys : Sys σ) (repo dest branch rev : String) (w : σ)
    (h : isNotExist (sys.stat w (pathJoin [dest, ".git"])) = true) :
    (cmdsOf (syncRepo sys repo dest branch rev w).events).head? =
      some (cloneCmd repo dest branch, (sys.run w (cloneCmd repo dest branch)).1) := by
  cases hs : sys.stat w (pathJoin [dest, ".git"]) with
  | none => rw [hs] at h; cases h
  | some e =>
    have hne : e.notExist = true := by rw [hs] at h; exact h
    cases h1 : (sys.run w (cloneCmd repo dest branch)).1.err with
    | some e1 =>
      rw [syncRepo_cloneFail sys repo dest branch rev w e hs hne e1 h1]
      simp [cmdsOf]
    | none =>
      rw [syncRepo_cloneOk sys repo dest branch rev w e hs hne h1]
      obtain ⟨rest, hrest⟩ := syncFetch_events sys dest branch rev
        (sys.run w (cloneCmd repo dest branch)).2
        [Event.stat (pathJoin [dest, ".git"]) (some e),
          Event.exec (cloneCmd repo dest branch) (sys.run w (cloneCmd repo dest branch)).1,
          Event.log ("clone " ++ sys.quote repo ++ ": " ++
            (sys.run w (cloneCmd repo dest branch)).1.output)]
      rw [hrest]
      simp [cmdsOf]

/-- A call whose stat succeeded runs the fetch first and never a clone. -/
theorem syncRepo_head_fetch (sys : Sys σ) (repo dest branch rev : String) (w : σ)
    (hs : sys.stat w (pathJoin [dest, ".git"]) = none) :
    (cmdsOf (syncRepo sys repo dest branch rev w).events).head? =
        some (fetchCmd dest branch, (sys.run w (fetchCmd dest branch)).1) ∧
      ∀ p ∈ cmdsOf (syncRepo sys repo dest branch rev w).events, isClone p.1 = false := by
  rw [syncRepo_exists sys repo dest branch rev w hs]
  constructor
  · obtain ⟨rest, hrest⟩ := syncFetch_events sys dest branch rev w
      [Event.stat (pathJoin [dest, ".git"]) none]
    rw [hrest]
    simp [cmdsOf]
  · apply syncFetch_noClone
    intro p hp
    simp [cmdsOf] at hp

/-- C1 (short-circuit on failure). For every input and every behaviour of the external
commands: if the k-th command that `syncRepo` invokes returns a non-nil error, then
`syncRepo` returns a non-nil error and that command is the last one invoked. In
particular, when `dest/.git` exists and `git fetch` fails, the fetch is the only
command invoked, and the world is the one the failed fetch left. -/
theorem syncRepo_short_circuit (sys : Sys σ) (repo dest branch rev : String) (w : σ) :
    (∀ k c res,
      (cmdsOf (syncRepo sys repo dest branch rev w).events)[k]? = some (c, res) →
      res.err ≠ none →
        (syncRepo sys repo dest branch rev w).err ≠ none ∧
          (cmdsOf (syncRepo sys repo dest branch rev w).events).length = k + 1) ∧
    (sys.stat w (pathJoin [dest, ".git"]) = none →
      (sys.run w (fetchCmd dest branch)).1.err ≠ none →
        (syncRepo sys repo dest branch rev w).err ≠ none ∧
          cmdsOf (syncRepo sys repo dest branch rev w).events =
            [(fetchCmd dest branch, (sys.run w (fetchCmd dest branch)).1)] ∧
          (syncRepo sys repo dest branch rev w).world =
            (sys.run w (fetchCmd dest branch)).2) := by
  constructor
  · intro k c res hk herr
    cases hs : sys.stat w (pathJoin [dest, ".git"]) with
    | none =>
      exact stepInv_short_circuit sys _
        (syncRepo_inv sys repo dest branch rev w (Or.inl hs)) k c res hk herr
    | some e =>
      cases hne : e.notExist with
      | true =>
        exact stepInv_short_circuit sys _
          (syncRepo_inv sys repo dest branch rev w
            (Or.inr (by rw [hs]; exact hne))) k c res hk herr
      | false =>
        rw [syncRepo_statFail sys repo dest branch rev w e hs hne] at hk
        simp [cmdsOf] at hk
  · intro hs hf
    rw [syncRepo_exists sys repo dest branch rev w hs]
    cases h : (sys.run w (fetchCmd dest branch)).1.err with
    | none => exact absurd h hf
    | some e =>
      rw [syncFetch_fail sys dest branch rev w _ e h]
      simp [cmdsOf]

/-- C1, at a concrete run: `dest/.git` exists and the fetch exits with status 128. -/
theorem syncRepo_short_circuit_witness :
    (syncRepo scriptSys "https://example/repo.git" "/tmp/dest" "main" "HEAD"
        ⟨none, none, [⟨"fatal: unable to access", some "exit status 128"⟩]⟩).err ≠ none ∧
      cmdsOf (syncRepo scriptSys "https://example/repo.git" "/tmp/dest" "main" "HEAD"
        ⟨none, none, [⟨"fatal: unable to access", some "exit status 128"⟩]⟩).events =
        [(⟨["git", "fetch", "origin", "main"], "/tmp/dest"⟩,
          ⟨"fatal: unable to access", some "exit status 128"⟩)] ∧
      (syncRepo scriptSys "https://example/repo.git" "/tmp/dest" "main" "HEAD"
        ⟨none, none, [⟨"fatal: unable to access", some "exit status 128"⟩]⟩).world =
        ⟨none, none, []⟩ :=
  (syncRepo_short_circuit scriptSys "https://example/repo.git" "/tmp/dest" "main" "HEAD"
    ⟨none, none, [⟨"fatal: unable to access", some "exit status 128"⟩]⟩).2
    (by rfl) (by decide)

/-- C2 (the success path is the exact sequence of four operations). `syncRepo` returns
`nil` if and only if the stat of `dest/.git` succeeds or reports not-exist and every
command it invokes succeeds; in that case the commands invoked are, in order,
`git clone --no-checkout -b branch repo dest` (only when the stat reported not-exist),
`git fetch origin branch`, `git reset --hard rev` and `chmod -R 755 dest`, the last
three run in `dest`, with the arguments passed verbatim. -/
theorem syncRepo_success_sequence (sys : Sys σ) (repo dest branch rev : String) (w : σ) :
    ((syncRepo sys repo dest branch rev w).err = none ↔
      (sys.stat w (pathJoin [dest, ".git"]) = none ∨
        isNotExist (sys.stat w (pathJoin [dest, ".git"])) = true) ∧
      AllOk (cmdsOf (syncRepo sys repo dest branch rev w).events)) ∧
    ((syncRepo sys repo dest branch rev w).err = none →
      (cmdsOf (syncRepo sys repo dest branch rev w).events).map Prod.fst =
        (if isNotExist (sys.stat w (pathJoin [dest, ".git"])) = true then
          [({ args := ["git", "clone", "--no-checkout", "-b", branch, repo, dest],
              dir := "" } : Cmd)]
        else []) ++
        [{ args := ["git", "fetch", "origin", branch], dir := dest },
          { args := ["git", "reset", "--hard", rev], dir := dest },
          { args := ["chmod", "-R", "755", dest], dir := dest }]) := by
  cases hs : sys.stat w (pathJoin [dest, ".git"]) with
  | none =>
    have hinv := syncRepo_inv sys repo dest branch rev w (Or.inl hs)
    refine ⟨⟨fun h => ⟨Or.inl rfl, hinv.nil_iff.1 h⟩, fun h => hinv.nil_iff.2 h.2⟩, ?_⟩
    intro hnil
    rw [syncRepo_exists sys repo dest branch rev w hs] at hnil ⊢
    rw [syncFetch_names sys dest branch rev w _ hnil]
    simp [cmdsOf, isNotExist, fetchCmd, resetCmd, chmodCmd, command]
  | some e =>
    cases hne : e.notExist with
    | false =>
      rw [syncRepo_statFail sys repo dest branch rev w e hs hne]
      refine ⟨⟨fun h => (by cases h), fun h => ?_⟩, fun h => (by cases h)⟩
      rcases h.1 with h1 | h1
      · cases h1
      · simp [isNotExist, hne] at h1
    | true =>
      have hst : isNotExist (some e) = true := hne
      have hinv := syncRepo_inv sys repo dest branch rev w (Or.inr (by rw [hs]; exact hst))
      refine ⟨⟨fun h => ⟨Or.inr hst, hinv.nil_iff.1 h⟩, fun h => hinv.nil_iff.2 h.2⟩, ?_⟩
      intro hnil
      cases h1 : (sys.run w (cloneCmd repo dest branch)).1.err with
      | some e1 =>
        rw [syncRepo_cloneFail sys repo dest branch rev w e hs hne e1 h1] at hnil
        cases hnil
      | none =>
        rw [syncRepo_cloneOk sys repo dest branch rev w e hs hne h1] at hnil ⊢
        rw [syncFetch_names sys dest branch rev _ _ hnil]
        simp [cmdsOf, hst, cloneCmd, fetchCmd, resetCmd, chmodCmd, command]

/-- C2, at a concrete run: a first run with revision `HEAD` in which every command
succeeds invokes the four commands in order, `HEAD` passed as the literal text. -/
theorem syncRepo_success_sequence_witness :
    (cmdsOf (syncRepo scriptSys "https://example/repo.git" "/tmp/empty-dir" "main" "HEAD"
        ⟨some ⟨"no such file or directory", true⟩, none, []⟩).events).map Prod.fst =
      [⟨["git", "clone", "--no-checkout", "-b", "main", "https://example/repo.git",
          "/tmp/empty-dir"], ""⟩,
        ⟨["git", "fetch", "origin", "main"], "/tmp/empty-dir"⟩,
        ⟨["git", "reset", "--hard", "HEAD"], "/tmp/empty-dir"⟩,
        ⟨["chmod", "-R", "755", "/tmp/empty-dir"], "/tmp/empty-dir"⟩] :=
  (syncRepo_success_sequence scriptSys "https://example/repo.git" "/tmp/empty-dir" "main"
    "HEAD" ⟨some ⟨"no such file or directory", true⟩, none, []⟩).2 (by rfl)

/-- C4 (the initialisation check is a three-way classification). Every call starts
with the stat of `path.Join(dest, ".git")` in the world of that call. If the stat
reports not-exist, the first command is `git clone`; if it succeeds, no `git clone`
is invoked and the first command is `git fetch`; if it fails otherwise, `syncRepo`
returns an error without invoking any command or changing the world, and the text
of that error is the text of no clone failure. Hence `git clone` is invoked if and
only if the stat reports not-exist. -/
theorem syncRepo_init_classification (sys : Sys σ) (repo dest branch rev : String)
    (w : σ) :
    (syncRepo sys repo dest branch rev w).events.head? =
      some (Event.stat (pathJoin [dest, ".git"]) (sys.stat w (pathJoin [dest, ".git"]))) ∧
    (isNotExist (sys.stat w (pathJoin [dest, ".git"])) = true →
      (cmdsOf (syncRepo sys repo dest branch rev w).events).head? =
        some (cloneCmd repo dest branch, (sys.run w (cloneCmd repo dest branch)).1)) ∧
    (sys.stat w (pathJoin [dest, ".git"]) = none →
      (cmdsOf (syncRepo sys repo dest branch rev w).events).head? =
          some (fetchCmd dest branch, (sys.run w (fetchCmd dest branch)).1) ∧
        ∀ p ∈ cmdsOf (syncRepo sys repo dest branch rev w).events, isClone p.1 = false) ∧
    (∀ e, sys.stat w (pathJoin [dest, ".git"]) = some e → e.notExist = false →
      (syncRepo sys repo dest branch rev w).err =
          some (statError sys (pathJoin [dest, ".git"]) e.msg) ∧
        cmdsOf (syncRepo sys repo dest branch rev w).events = [] ∧
        (syncRepo sys repo dest branch rev w).world = w ∧
        ∀ c e1 out, (syncRepo sys repo dest branch rev w).err ≠
          some (cloneError sys c e1 out)) ∧
    ((∃ p ∈ cmdsOf (syncRepo sys repo dest branch rev w).events, isClone p.1 = true) ↔
      isNotExist (sys.stat w (pathJoin [dest, ".git"])) = true) := by
  have hstat : ∀ e, sys.stat w (pathJoin [dest, ".git"]) = some e → e.notExist = false →
      (syncRepo sys repo dest branch rev w).err =
          some (statError sys (pathJoin [dest, ".git"]) e.msg) ∧
        cmdsOf (syncRepo sys repo dest branch rev w).events = [] ∧
        (syncRepo sys repo dest branch rev w).world = w ∧
        ∀ c e1 out, (syncRepo sys repo dest branch rev w).err ≠
          some (cloneError sys c e1 out) := by
    intro e hs hne
    rw [syncRepo_statFail sys repo dest branch rev w e hs hne]
    refine ⟨rfl, by simp [cmdsOf], rfl, ?_⟩
    intro c e1 out h
    exact statError_ne_cloneError sys _ _ c e1 out (Option.some.inj h)
  refine ⟨?_, syncRepo_head_clone sys repo dest branch rev w,
    syncRepo_head_fetch sys repo dest branch rev w, hstat, ?_⟩
  · cases hs : sys.stat w (pathJoin [dest, ".git"]) with
    | none =>
      rw [syncRepo_exists sys repo dest branch rev w hs]
      obtain ⟨rest, hrest⟩ := syncFetch_events sys dest branch rev w
        [Event.stat (pathJoin [dest, ".git"]) none]
      rw [hrest]; rfl
    | some e =>
      cases hne : e.notExist with
      | false => rw [syncRepo_statFail sys repo dest branch rev w e hs hne]; rfl
      | true =>
        cases h1 : (sys.run w (cloneCmd repo dest branch)).1.err with
        | some e1 => rw [syncRepo_cloneFail sys repo dest branch rev w e hs hne e1 h1]; rfl
        | none =>
          rw [syncRepo_cloneOk sys repo dest branch rev w e hs hne h1]
          obtain ⟨rest, hrest⟩ := syncFetch_events sys dest branch rev
            (sys.run w (cloneCmd repo dest branch)).2
            [Event.stat (pathJoin [dest, ".git"]) (some e),
              Event.exec (cloneCmd repo dest branch)
                (sys.run w (cloneCmd repo dest branch)).1,
              Event.log ("clone " ++ sys.quote repo ++ ": " ++
                (sys.run w (cloneCmd repo dest branch)).1.output)]
          rw [hrest]; rfl
  · constructor
    · rintro ⟨p, hp, hclone⟩
      cases hs : sys.stat w (pathJoin [dest, ".git"]) with
      | none =>
        have := (syncRepo_head_fetch sys repo dest branch rev w hs).2 p hp
        rw [this] at hclone; cases hclone
      | some e =>
        cases hne : e.notExist with
        | true => exact hne
        | false =>
          rw [(hstat e hs hne).2.1] at hp
          cases hp
    · intro h
      have hh := syncRepo_head_clone sys repo dest branch rev w h
      refine ⟨_, List.mem_of_mem_head? hh, ?_⟩
      simp [isClone, cloneCmd, command]

/-- C4, at a concrete run: a stat that fails with permission denied returns the stat
error and invokes nothing. -/
theorem syncRepo_init_classification_witness :
    (syncRepo scriptSys "https://example/repo.git" "/tmp/dest" "main" "HEAD"
        ⟨some ⟨"permission denied", false⟩, none, []⟩).err =
        some "error checking if repo exist \"/tmp/dest/.git\": permission denied" ∧
      cmdsOf (syncRepo scriptSys "https://example/repo.git" "/tmp/dest" "main" "HEAD"
        ⟨some ⟨"permission denied", false⟩, none, []⟩).events = [] :=
  have h := (syncRepo_init_classification scriptSys "https://example/repo.git"
      "/tmp/dest" "main" "HEAD" ⟨some ⟨"permission denied", false⟩, none, []⟩).2.2.2.1
    ⟨"permission denied", false⟩ (by rfl) (by rfl)
  ⟨h.1, h.2.1⟩

/-- C9 (descriptive errors). For every command that `syncRepo` invokes (clone, fetch,
reset, chmod) and every output and non-nil error it returns, the text of the error
that `syncRepo` returns contains the invoked command line (the name and the arguments
joined by single spaces, quoted by the verb q), the text of the exit error, and the
complete combined output. -/
theorem syncRepo_descriptive_errors (sys : Sys σ) (repo dest branch rev : String) (w : σ)
    (c : Cmd) (res : CmdResult) (e : String)
    (hmem : (c, res) ∈ cmdsOf (syncRepo sys repo dest branch rev w).events)
    (he : res.err = some e) :
    ∃ msg, (syncRepo sys repo dest branch rev w).err = some msg ∧
      Contains msg (sys.quote (stringsJoin c.args " ")) ∧ Contains msg e ∧
      Contains msg res.output := by
  cases hs : sys.stat w (pathJoin [dest, ".git"]) with
  | none =>
    exact (syncRepo_inv sys repo dest branch rev w (Or.inl hs)).descr c res e hmem he
  | some e0 =>
    cases hne : e0.notExist with
    | true =>
      exact (syncRepo_inv sys repo dest branch rev w
        (Or.inr (by rw [hs]; exact hne))).descr c res e hmem he
    | false =>
      rw [syncRepo_statFail sys repo dest branch rev w e0 hs hne] at hmem
      simp [cmdsOf] at hmem

/-- C9, at a concrete run: the reset of an initialised mirror fails. -/
theorem syncRepo_descriptive_errors_witness :
    ∃ msg, (syncRepo scriptSys "https://example/repo.git" "/tmp/dest" "main" "0a1b2c"
        ⟨none, none, [⟨"", none⟩, ⟨"fatal: ambiguous argument", some "exit status 128"⟩]⟩).err
        = some msg ∧
      Contains msg "\"git reset --hard 0a1b2c\"" ∧ Contains msg "exit status 128" ∧
      Contains msg "fatal: ambiguous argument" :=
  syncRepo_descriptive_errors scriptSys "https://example/repo.git" "/tmp/dest" "main"
    "0a1b2c" ⟨none, none, [⟨"", none⟩, ⟨"fatal: ambiguous argument", some "exit status 128"⟩]⟩
    ⟨["git", "reset", "--hard", "0a1b2c"], "/tmp/dest"⟩
    ⟨"fatal: ambiguous argument", some "exit status 128"⟩ "exit status 128"
    (by decide) (by rfl)

end SyncClaims

/-! ## Claims on `main` and its loop -/

section MainClaims
variable {σ : Type}

theorem iteration_counts_ok (sys : Sys σ) (cfg : Config) (p : Proc σ)
    (h : (syncRepo sys cfg.repo cfg.dest cfg.branch cfg.rev p.world).err = none) :
    (iteration sys cfg p).syncCount = p.syncCount + 1 ∧
      (iteration sys cfg p).errorCount = p.errorCount ∧
      (iteration sys cfg p).observations = p.observations + 1 := by
  simp only [iteration, h, and_self]

theorem iteration_counts_fail (sys : Sys σ) (cfg : Config) (p : Proc σ)
    (h : (syncRepo sys cfg.repo cfg.dest cfg.branch cfg.rev p.world).err ≠ none) :
    (iteration sys cfg p).syncCount = p.syncCount ∧
      (iteration sys cfg p).errorCount = p.errorCount + 1 ∧
      (iteration sys cfg p).observations = p.observations := by
  cases he : (syncRepo sys cfg.repo cfg.dest cfg.branch cfg.rev p.world).err with
  | none => exact absurd he h
  | some e => simp only [iteration, he, and_self]

theorem iteration_exit (sys : Sys σ) (cfg : Config) (p : Proc σ) :
    (iteration sys cfg p).exit = p.exit := by
  cases he : (syncRepo sys cfg.repo cfg.dest cfg.branch cfg.rev p.world).err <;>
    simp only [iteration, he]

/-- The events one round appends: the call, the events of `syncRepo`, its return,
the log line of an error if any, and the wait, sleep and done lines. -/
theorem iteration_events (sys : Sys σ) (cfg : Config) (p : Proc σ) :
    (iteration sys cfg p).events =
      p.events ++ [Event.call cfg.repo cfg.dest cfg.branch cfg.rev] ++
      (syncRepo sys cfg.repo cfg.dest cfg.branch cfg.rev p.world).events ++
      [Event.ret (syncRepo sys cfg.repo cfg.dest cfg.branch cfg.rev p.world).err] ++
      (match (syncRepo sys cfg.repo cfg.dest cfg.branch cfg.rev p.world).err with
        | some e => [Event.log ("error syncing repo: " ++ e ++ "\n")]
        | none => []) ++
      [Event.log ("wait " ++ toString cfg.wait ++ " seconds"),
        Event.sleep (sleepDuration cfg.wait), Event.log "done"] := by
  cases he : (syncRepo sys cfg.repo cfg.dest cfg.branch cfg.rev p.world).err <;>
    simp [iteration, he]

theorem loop_succ (sys : Sys σ) (cfg : Config) (n : Nat) (p : Proc σ) :
    loop sys cfg (n + 1) p = iteration sys cfg (loop sys cfg n p) := by
  induction n generalizing p with
  | zero => rfl
  | succ n ih =>
    show loop sys cfg (n + 1) (iteration sys cfg p) = _
    rw [ih (iteration sys cfg p)]
    rfl

theorem loop_exit (sys : Sys σ) (cfg : Config) (n : Nat) (p : Proc σ) :
    (loop sys cfg n p).exit = p.exit := by
  induction n with
  | zero => rfl
  | succ n ih => rw [loop_succ, iteration_exit, ih]

/-- The counters after `n` rounds: each grew, their sum grew by `n`, and the number
of observations grew as much as the success counter. -/
theorem loop_counts (sys : Sys σ) (cfg : Config) (n : Nat) (p : Proc σ) :
    p.syncCount ≤ (loop sys cfg n p).syncCount ∧
      p.errorCount ≤ (loop sys cfg n p).errorCount ∧
      (loop sys cfg n p).syncCount + (loop sys cfg n p).errorCount =
        p.syncCount + p.errorCount + n ∧
      (loop sys cfg n p).observations + p.syncCount =
        p.observations + (loop sys cfg n p).syncCount := by
  induction n with
  | zero => exact ⟨le_refl _, le_refl _, rfl, rfl⟩
  | succ n ih =>
    rw [loop_succ]
    by_cases h : (syncRepo sys cfg.repo cfg.dest cfg.branch cfg.rev
        (loop sys cfg n p).world).err = none
    · obtain ⟨h1, h2, h3⟩ := iteration_counts_ok sys cfg _ h
      omega
    · obtain ⟨h1, h2, h3⟩ := iteration_counts_fail sys cfg _ h
      omega

theorem loop_events (sys : Sys σ) (cfg : Config) (n : Nat) (p : Proc σ) :
    ∃ rest, (loop sys cfg n p).events = p.events ++ rest := by
  induction n with
  | zero => exact ⟨[], by simp [loop]⟩
  | succ n ih =>
    obtain ⟨rest, hrest⟩ := ih
    rw [loop_succ, iteration_events, hrest]
    exact ⟨_, by simp only [List.append_assoc]; rfl⟩

/-- A run of `main` whose startup checks pass is the loop from the state in which
only the metrics endpoint has been started. -/
theorem main_started (sys : Sys σ) (cfg : Config) (w : σ) (n : Nat)
    (hrepo : cfg.repo ≠ "") (hdest : cfg.dest ≠ "") (hgit : sys.lookPath w "git" = none) :
    main sys cfg w n = loop sys cfg n ⟨w, 0, 0, 0, [Event.startMetrics], none⟩ := by
  simp [main, hrepo, hdest, hgit]

/-- A run of `main` whose startup checks fail. -/
theorem main_fatal (sys : Sys σ) (cfg : Config) (w : σ) (n : Nat)
    (h : cfg.repo = "" ∨ cfg.dest = "" ∨ sys.lookPath w "git" ≠ none) :
    (main sys cfg w n).exit = some 1 ∧
      (main sys cfg w n).world = w ∧
      (main sys cfg w n).syncCount = 0 ∧
      (main sys cfg w n).errorCount = 0 ∧
      (main sys cfg w n).observations = 0 ∧
      ((main sys cfg w n).events = [Event.usage, Event.log usage] ∨
        ∃ e, (main sys cfg w n).events =
          [Event.log ("required git executable not found: " ++ e)]) := by
  by_cases hc : cfg.repo = "" ∨ cfg.dest = ""
  · simp [main, hc]
  · have hg : sys.lookPath w "git" ≠ none := by
      rcases h with h | h | h
      · exact absurd (Or.inl h) hc
      · exact absurd (Or.inr h) hc
      · exact h
    cases hl : sys.lookPath w "git" with
    | none => exact absurd hl hg
    | some e => simp [main, hc, hl]

/-- C5 (metrics accounting). In every round of the loop exactly one of the two
counters grows, by exactly 1: the success counter, together with one observation of
the histogram, if and only if `syncRepo` returned `nil`, and the error counter
otherwise. Both counters never decrease; after `n` rounds of a started process
success + error = n and the number of observations equals the success counter; a
first round whose clone fails ends with error = 1 and success = 0. -/
theorem metrics_accounting (sys : Sys σ) (cfg : Config) (p : Proc σ) (w : σ) (n : Nat) :
    ((syncRepo sys cfg.repo cfg.dest cfg.branch cfg.rev p.world).err = none →
      (iteration sys cfg p).syncCount = p.syncCount + 1 ∧
        (iteration sys cfg p).errorCount = p.errorCount ∧
        (iteration sys cfg p).observations = p.observations + 1) ∧
    ((syncRepo sys cfg.repo cfg.dest cfg.branch cfg.rev p.world).err ≠ none →
      (iteration sys cfg p).syncCount = p.syncCount ∧
        (iteration sys cfg p).errorCount = p.errorCount + 1 ∧
        (iteration sys cfg p).observations = p.observations) ∧
    (p.syncCount ≤ (loop sys cfg n p).syncCount ∧
      p.errorCount ≤ (loop sys cfg n p).errorCount) ∧
    (cfg.repo ≠ "" → cfg.dest ≠ "" → sys.lookPath w "git" = none →
      (main sys cfg w n).syncCount + (main sys cfg w n).errorCount = n ∧
        (main sys cfg w n).observations = (main sys cfg w n).syncCount ∧
        (isNotExist (sys.stat w (pathJoin [cfg.dest, ".git"])) = true →
          (sys.run w (cloneCmd cfg.repo cfg.dest cfg.branch)).1.err ≠ none →
          (main sys cfg w 1).errorCount = 1 ∧ (main sys cfg w 1).syncCount = 0)) := by
  refine ⟨iteration_counts_ok sys cfg p, iteration_counts_fail sys cfg p,
    ⟨(loop_counts sys cfg n p).1, (loop_counts sys cfg n p).2.1⟩, ?_⟩
  intro hrepo hdest hgit
  rw [main_started sys cfg w n hrepo hdest hgit, main_started sys cfg w 1 hrepo hdest hgit]
  obtain ⟨_, _, h3, h4⟩ :=
    loop_counts sys cfg n ⟨w, 0, 0, 0, [Event.startMetrics], none⟩
  refine ⟨by simpa using h3, by simpa using h4, ?_⟩
  intro hne hclone
  have hfail : (syncRepo sys cfg.repo cfg.dest cfg.branch cfg.rev w).err ≠ none := by
    cases hs : sys.stat w (pathJoin [cfg.dest, ".git"]) with
    | none => rw [hs] at hne; cases hne
    | some e =>
      have hn : e.notExist = true := by rw [hs] at hne; exact hne
      cases h1 : (sys.run w (cloneCmd cfg.repo cfg.dest cfg.branch)).1.err with
      | none => exact absurd h1 hclone
      | some e1 =>
        rw [syncRepo_cloneFail sys cfg.repo cfg.dest cfg.branch cfg.rev w e hs hn e1 h1]
        simp
  obtain ⟨h1, h2, _⟩ :=
    iteration_counts_fail sys cfg ⟨w, 0, 0, 0, [Event.startMetrics], none⟩ hfail
  exact ⟨by simpa [loop] using h2, by simpa [loop] using h1⟩

/-- C5, at a concrete run: the scenario of an unreachable remote on the first run. -/
theorem metrics_accounting_witness :
    (main scriptSys ⟨"https://unroutable/repo.git", "/tmp/empty-dir", "main", "HEAD", 0⟩
        ⟨some ⟨"no such file or directory", true⟩, none,
          [⟨"fatal: unable to access", some "exit status 128"⟩]⟩ 1).errorCount = 1 ∧
      (main scriptSys ⟨"https://unroutable/repo.git", "/tmp/empty-dir", "main", "HEAD", 0⟩
        ⟨some ⟨"no such file or directory", true⟩, none,
          [⟨"fatal: unable to access", some "exit status 128"⟩]⟩ 1).syncCount = 0 :=
  ((metrics_accounting scriptSys
      ⟨"https://unroutable/repo.git", "/tmp/empty-dir", "main", "HEAD", 0⟩
      ⟨⟨none, none, []⟩, 0, 0, 0, [], none⟩
      ⟨some ⟨"no such file or directory", true⟩, none,
        [⟨"fatal: unable to access", some "exit status 128"⟩]⟩ 1).2.2.2
    (by decide) (by decide) (by rfl)).2.2 (by rfl) (by decide)

/-- C8 (startup preconditions gate the loop). `main` reaches its first call of
`syncRepo` if and only if the repo URL is non-empty, the destination path is
non-empty and `git` is found on the PATH. If one of the three fails, the process
exits with status 1 before the metrics endpoint is started, before any call of
`syncRepo` or any command, and with every counter still at zero. -/
theorem startup_gate (sys : Sys σ) (cfg : Config) (w : σ) (n : Nat) :
    (Event.call cfg.repo cfg.dest cfg.branch cfg.rev ∈ (main sys cfg w (n + 1)).events ↔
      cfg.repo ≠ "" ∧ cfg.dest ≠ "" ∧ sys.lookPath w "git" = none) ∧
    ((cfg.repo = "" ∨ cfg.dest = "" ∨ sys.lookPath w "git" ≠ none) →
      (main sys cfg w n).exit = some 1 ∧
        Event.startMetrics ∉ (main sys cfg w n).events ∧
        (∀ r d b v, Event.call r d b v ∉ (main sys cfg w n).events) ∧
        (∀ path err, Event.stat path err ∉ (main sys cfg w n).events) ∧
        cmdsOf (main sys cfg w n).events = [] ∧
        (main sys cfg w n).world = w ∧
        (main sys cfg w n).syncCount = 0 ∧
        (main sys cfg w n).errorCount = 0 ∧
        (main sys cfg w n).observations = 0) ∧
    ((cfg.repo ≠ "" ∧ cfg.dest ≠ "" ∧ sys.lookPath w "git" = none) →
      (main sys cfg w n).exit = none ∧
        (main sys cfg w n).events.head? = some Event.startMetrics) := by
  have hfatal : (cfg.repo = "" ∨ cfg.dest = "" ∨ sys.lookPath w "git" ≠ none) →
      ∀ m, (main sys cfg w m).exit = some 1 ∧
        Event.startMetrics ∉ (main sys cfg w m).events ∧
        (∀ r d b v, Event.call r d b v ∉ (main sys cfg w m).events) ∧
        (∀ path err, Event.stat path err ∉ (main sys cfg w m).events) ∧
        cmdsOf (main sys cfg w m).events = [] ∧
        (main sys cfg w m).world = w ∧
        (main sys cfg w m).syncCount = 0 ∧
        (main sys cfg w m).errorCount = 0 ∧
        (main sys cfg w m).observations = 0 := by
    intro h m
    obtain ⟨h1, h2, h3, h4, h5, h6⟩ := main_fatal sys cfg w m h
    refine ⟨h1, ?_, ?_, ?_, ?_, h2, h3, h4, h5⟩
    · rcases h6 with h6 | ⟨e, h6⟩ <;> rw [h6] <;> simp
    · intro r d b v
      rcases h6 with h6 | ⟨e, h6⟩ <;> rw [h6] <;> simp
    · intro path err
      rcases h6 with h6 | ⟨e, h6⟩ <;> rw [h6] <;> simp
    · rcases h6 with h6 | ⟨e, h6⟩ <;> rw [h6] <;> rfl
  refine ⟨⟨?_, ?_⟩, fun h => hfatal h n, ?_⟩
  · intro hmem
    by_contra hnot
    have h : cfg.repo = "" ∨ cfg.dest = "" ∨ sys.lookPath w "git" ≠ none := by
      by_contra hh
      push_neg at hh
      exact hnot ⟨hh.1, hh.2.1, hh.2.2⟩
    exact (hfatal h (n + 1)).2.2.1 _ _ _ _ hmem
  · rintro ⟨hrepo, hdest, hgit⟩
    rw [main_started sys cfg w (n + 1) hrepo hdest hgit]
    show Event.call cfg.repo cfg.dest cfg.branch cfg.rev ∈
      (loop sys cfg n (iteration sys cfg ⟨w, 0, 0, 0, [Event.startMetrics], none⟩)).events
    obtain ⟨rest, hrest⟩ := loop_events sys cfg n
      (iteration sys cfg ⟨w, 0, 0, 0, [Event.startMetrics], none⟩)
    rw [hrest, iteration_events]
    simp
  · rintro ⟨hrepo, hdest, hgit⟩
    rw [main_started sys cfg w n hrepo hdest hgit]
    refine ⟨by rw [loop_exit], ?_⟩
    obtain ⟨rest, hrest⟩ := loop_events sys cfg n ⟨w, 0, 0, 0, [Event.startMetrics], none⟩
    rw [hrest]
    rfl

/-- C8, at a concrete run: with an empty destination path the process exits with
status 1 and nothing else has happened. -/
theorem startup_gate_witness :
    (main scriptSys ⟨"https://example/repo.git", "", "master", "HEAD", 0⟩
        ⟨none, none, []⟩ 3).exit = some 1 ∧
      Event.startMetrics ∉ (main scriptSys ⟨"https://example/repo.git", "", "master",
        "HEAD", 0⟩ ⟨none, none, []⟩ 3).events :=
  have h := (startup_gate scriptSys ⟨"https://example/repo.git", "", "master", "HEAD", 0⟩
    ⟨none, none, []⟩ 3).2.1 (Or.inr (Or.inl rfl))
  ⟨h.1, h.2.1⟩

end MainClaims

/-! ## The rounds of the loop and the default of the interval -/

section LoopClaims
variable {σ : Type}

theorem syncChmod_noLoopEvent (sys : Sys σ) (dest : String) (w : σ) (evs : List Event)
    (hevs : ∀ ev ∈ evs, isLoopEvent ev = false) :
    ∀ ev ∈ (syncChmod sys dest w evs).events, isLoopEvent ev = false := by
  intro ev hev
  cases h : (sys.run w (chmodCmd dest)).1.err with
  | some e =>
    rw [syncChmod_fail sys dest w evs e h] at hev
    simp only [List.mem_append, List.mem_singleton] at hev
    rcases hev with hev | rfl
    · exact hevs ev hev
    · rfl
  | none =>
    rw [syncChmod_ok sys dest w evs h] at hev
    simp only [List.mem_append, List.mem_singleton] at hev
    rcases hev with hev | rfl
    · exact hevs ev hev
    · rfl

theorem syncReset_noLoopEvent (sys : Sys σ) (dest rev : String) (w : σ) (evs : List Event)
    (hevs : ∀ ev ∈ evs, isLoopEvent ev = false) :
    ∀ ev ∈ (syncReset sys dest rev w evs).events, isLoopEvent ev = false := by
  cases h : (sys.run w (resetCmd dest rev)).1.err with
  | some e =>
    intro ev hev
    rw [syncReset_fail sys dest rev w evs e h] at hev
    simp only [List.mem_append, List.mem_singleton] at hev
    rcases hev with hev | rfl
    · exact hevs ev hev
    · rfl
  | none =>
    rw [syncReset_ok sys dest rev w evs h]
    apply syncChmod_noLoopEvent
    intro ev hev
    simp only [List.mem_append, List.mem_cons, List.not_mem_nil, or_false] at hev
    rcases hev with hev | rfl | rfl
    · exact hevs ev hev
    · rfl
    · rfl

theorem syncFetch_noLoopEvent (sys : Sys σ) (dest branch rev : String) (w : σ)
    (evs : List Event) (hevs : ∀ ev ∈ evs, isLoopEvent ev = false) :
    ∀ ev ∈ (syncFetch sys dest branch rev w evs).events, isLoopEvent ev = false := by
  cases h : (sys.run w (fetchCmd dest branch)).1.err with
  | some e =>
    intro ev hev
    rw [syncFetch_fail sys dest branch rev w evs e h] at hev
    simp only [List.mem_append, List.mem_singleton] at hev
    rcases hev with hev | rfl
    · exact hevs ev hev
    · rfl
  | none =>
    rw [syncFetch_ok sys dest branch rev w evs h]
    apply syncReset_noLoopEvent
    intro ev hev
    simp only [List.mem_append, List.mem_cons, List.not_mem_nil, or_false] at hev
    rcases hev with hev | rfl | rfl
    · exact hevs ev hev
    · rfl
    · rfl

/-- A call of `syncRepo` only stats, runs commands and logs. -/
theorem syncRepo_noLoopEvent (sys : Sys σ) (repo dest branch rev : String) (w : σ) :
    ∀ ev ∈ (syncRepo sys repo dest branch rev w).events, isLoopEvent ev = false := by
  cases hs : sys.stat w (pathJoin [dest, ".git"]) with
  | none =>
    rw [syncRepo_exists sys repo dest branch rev w hs]
    apply syncFetch_noLoopEvent
    intro ev hev
    simp only [List.mem_singleton] at hev
    subst hev; rfl
  | some e =>
    cases hne : e.notExist with
    | false =>
      rw [syncRepo_statFail sys repo dest branch rev w e hs hne]
      intro ev hev
      simp only [List.mem_singleton] at hev
      subst hev; rfl
    | true =>
      cases h1 : (sys.run w (cloneCmd repo dest branch)).1.err with
      | some e1 =>
        rw [syncRepo_cloneFail sys repo dest branch rev w e hs hne e1 h1]
        intro ev hev
        simp only [List.mem_cons, List.not_mem_nil, or_false] at hev
        rcases hev with rfl | rfl <;> rfl
      | none =>
        rw [syncRepo_cloneOk sys repo dest branch rev w e hs hne h1]
        apply syncFetch_noLoopEvent
        intro ev hev
        simp only [List.mem_cons, List.not_mem_nil, or_false] at hev
        rcases hev with rfl | rfl | rfl <;> rfl

theorem filter_eq_nil_of_forall {α : Type} (f : α → Bool) (l : List α)
    (h : ∀ x ∈ l, f x = false) : l.filter f = [] := by
  induction l with
  | nil => rfl
  | cons a t ih =>
    have ha := h a (List.mem_cons_self a t)
    simp only [List.filter_cons, ha]
    exact ih (fun x hx => h x (List.mem_cons_of_mem a hx))

/-- The loop events of one round: the call, the return, the sleep. -/
theorem iteration_loopEvents (sys : Sys σ) (cfg : Config) (p : Proc σ) :
    (iteration sys cfg p).events.filter isLoopEvent =
      p.events.filter isLoopEvent ++
        roundEvents cfg (syncRepo sys cfg.repo cfg.dest cfg.branch cfg.rev p.world).err := by
  rw [iteration_events]
  have h0 := filter_eq_nil_of_forall isLoopEvent _
    (syncRepo_noLoopEvent sys cfg.repo cfg.dest cfg.branch cfg.rev p.world)
  cases he : (syncRepo sys cfg.repo cfg.dest cfg.branch cfg.rev p.world).err <;>
    simp [List.filter_append, h0, isLoopEvent, roundEvents, List.filter_cons]

theorem sleepDuration_exact (wait : Int) (hlo : -9223372036 ≤ wait)
    (hhi : wait ≤ 9223372036) : sleepDuration wait = wait * 1000000000 := by
  have h1 : wrapInt64 wait = wait := by
    unfold wrapInt64
    rw [Int.emod_eq_of_lt (by omega) (by omega)]
    omega
  unfold sleepDuration
  rw [h1]
  unfold wrapInt64
  rw [Int.emod_eq_of_lt (by omega) (by omega)]
  omega

/-- C7, as amended (no terminal state, uniform retry). Once the loop is entered, for
every number of rounds and every outcome of `syncRepo`: the process has not exited
(a started `main` has no exit status, and no round sets one);
round n+1 starts from the state round n left; the loop events after n rounds are n
blocks of call, return, sleep in this order, the sleep being requested with
`time.Duration(flWait) * time.Second` whatever `syncRepo` returned; and that request
is exactly `flWait` seconds whenever `flWait` is between -9223372036 and
9223372036. -/
theorem loop_uniform_retry (sys : Sys σ) (cfg : Config) (p : Proc σ) (w : σ) (n : Nat) :
    (cfg.repo ≠ "" → cfg.dest ≠ "" → sys.lookPath w "git" = none →
      (main sys cfg w n).exit = none) ∧
    ((loop sys cfg n p).exit = p.exit) ∧
    (loop sys cfg (n + 1) p = iteration sys cfg (loop sys cfg n p)) ∧
    (∃ errs : List (Option String), errs.length = n ∧
      (loop sys cfg n p).events.filter isLoopEvent =
        p.events.filter isLoopEvent ++
          errs.flatMap (fun err =>
            [Event.call cfg.repo cfg.dest cfg.branch cfg.rev, Event.ret err,
              Event.sleep (sleepDuration cfg.wait)])) ∧
    (-9223372036 ≤ cfg.wait → cfg.wait ≤ 9223372036 →
      sleepDuration cfg.wait = cfg.wait * 1000000000) := by
  refine ⟨?_, loop_exit sys cfg n p, loop_succ sys cfg n p, ?_,
    sleepDuration_exact cfg.wait⟩
  · intro hrepo hdest hgit
    rw [main_started sys cfg w n hrepo hdest hgit, loop_exit]
  · induction n with
    | zero => exact ⟨[], rfl, by simp [loop]⟩
    | succ n ih =>
      obtain ⟨errs, hlen, hev⟩ := ih
      refine ⟨errs ++ [(syncRepo sys cfg.repo cfg.dest cfg.branch cfg.rev
        (loop sys cfg n p).world).err], by simp [hlen], ?_⟩
      rw [loop_succ, iteration_loopEvents, hev]
      simp [roundEvents, List.flatMap_append]

/-- C7 as amended, at a concrete run: two rounds with an interval of 30 seconds, the
first failing and the second succeeding, both followed by the same sleep. -/
theorem loop_uniform_retry_witness :
    (loop scriptSys ⟨"https://example/repo.git", "/tmp/dest", "main", "HEAD", 30⟩ 2
        ⟨⟨none, none, [⟨"fatal", some "exit status 128"⟩]⟩, 0, 0, 0, [], none⟩).exit = none ∧
      sleepDuration 30 = 30 * 1000000000 :=
  have h := loop_uniform_retry scriptSys
    ⟨"https://example/repo.git", "/tmp/dest", "main", "HEAD", 30⟩
    ⟨⟨none, none, [⟨"fatal", some "exit status 128"⟩]⟩, 0, 0, 0, [], none⟩
    ⟨none, none, []⟩ 2
  ⟨h.2.1, h.2.2.2.2 (by decide) (by decide)⟩

/-- C7 as stated fails: with `flWait` = 9223372037 the product with `time.Second`
overflows `int64`, and the round requests a sleep of a negative duration instead of
9223372037 seconds. -/
theorem loop_sleep_counterexample :
    Event.sleep (9223372037 * 1000000000) ∉
        (iteration scriptSys ⟨"https://example/repo.git", "/tmp/dest", "main", "HEAD",
          9223372037⟩ ⟨⟨none, none, []⟩, 0, 0, 0, [], none⟩).events ∧
      Event.sleep (-9223372036709551616) ∈
        (iteration scriptSys ⟨"https://example/repo.git", "/tmp/dest", "main", "HEAD",
          9223372037⟩ ⟨⟨none, none, []⟩, 0, 0, 0, [], none⟩).events := by
  decide

theorem atoi_nonneg_of_no_minus (s : String) (h : s.data.head? ≠ some '-') (v : Int)
    (hv : atoi s = some v) : 0 ≤ v := by
  unfold atoi at hv
  simp only [h, decide_False, false_or, Bool.false_eq_true, if_false] at hv
  split_ifs at hv
  all_goals
    split at hv
    · cases hv
    · split_ifs at hv
      cases hv
      exact Int.ofNat_nonneg _

theorem atoi_empty : atoi "" = none := by decide

/-- C10, as amended (the default of the interval). For every value of
`GIT_SYNC_WAIT` that does not begin with a minus sign (unset, empty, non-numeric, or a
decimal integer without a minus sign) the default of `flWait` delivered by
`envInt("GIT_SYNC_WAIT", 0)` is greater than or equal to 0; for a value that
`strconv.Atoi` accepts, the default is that integer, also when it is negative. -/
theorem flWait_default (env : List (String × String)) :
    ((getenv env "GIT_SYNC_WAIT").data.head? ≠ some '-' → 0 ≤ flWaitDefault env) ∧
    (∀ v, atoi (getenv env "GIT_SYNC_WAIT") = some v → flWaitDefault env = v) ∧
    (atoi (getenv env "GIT_SYNC_WAIT") = none → flWaitDefault env = 0) := by
  refine ⟨?_, ?_, ?_⟩
  · intro h
    unfold flWaitDefault envInt
    split
    · cases hv : atoi (getenv env "GIT_SYNC_WAIT") with
      | none => simp
      | some v => exact atoi_nonneg_of_no_minus _ h v hv
    · exact le_refl _
  · intro v hv
    have hne : getenv env "GIT_SYNC_WAIT" ≠ "" := by
      intro h0
      rw [h0, atoi_empty] at hv
      cases hv
    simp [flWaitDefault, envInt, hne, hv]
  · intro hv
    unfold flWaitDefault envInt
    split
    · simp [hv]
    · rfl

/-- C10 as amended, at concrete values: a positive, an invalid and an unset value. -/
theorem flWait_default_witness :
    0 ≤ flWaitDefault [("GIT_SYNC_WAIT", "30")] ∧
      flWaitDefault [("GIT_SYNC_WAIT", "30")] = 30 ∧
      flWaitDefault [("GIT_SYNC_WAIT", "soon")] = 0 :=
  ⟨(flWait_default [("GIT_SYNC_WAIT", "30")]).1 (by decide),
    (flWait_default [("GIT_SYNC_WAIT", "30")]).2.1 30 (by decide),
    (flWait_default [("GIT_SYNC_WAIT", "soon")]).2.2 (by decide)⟩

/-- C10 as stated fails: `GIT_SYNC_WAIT=-5` makes the default of `flWait` -5. -/
theorem flWait_default_counterexample :
    flWaitDefault [("GIT_SYNC_WAIT", "-5")] = -5 ∧
      ¬ (0 ≤ flWaitDefault [("GIT_SYNC_WAIT", "-5")]) := by
  decide

end LoopClaims

/-! ## Claims on convergence and idempotence -/

section GitClaims

/-- C6 (idempotence), the code at the failing input. The branch `main` of the remote
stays at `c2` (history `c0`, `c1`, `c2`) and `syncRepo` is called with the revision
`HEAD^` and identical arguments. The first call, into an empty destination, returns
`nil` and leaves the tree of `c1`; the second call returns `nil` and leaves the tree
of `c0`, because the reset moved the local branch and no step moves it back to the
fetched commit; a third call fails at the root commit. -/
theorem sync_idempotence_failing_input :
    (syncRepo gitSys "https://example/repo.git" "/data/dest" "main" "HEAD^"
        (remoteAt "c2")).err = none ∧
      (syncRepo gitSys "https://example/repo.git" "/data/dest" "main" "HEAD^"
        (syncRepo gitSys "https://example/repo.git" "/data/dest" "main" "HEAD^"
          (remoteAt "c2")).world).err = none ∧
      filesAt (syncRepo gitSys "https://example/repo.git" "/data/dest" "main" "HEAD^"
        (remoteAt "c2")).world "/data/dest" = [⟨"README", "v1", 493⟩] ∧
      filesAt (syncRepo gitSys "https://example/repo.git" "/data/dest" "main" "HEAD^"
        (syncRepo gitSys "https://example/repo.git" "/data/dest" "main" "HEAD^"
          (remoteAt "c2")).world).world "/data/dest" = [⟨"README", "v0", 493⟩] ∧
      filesAt (syncRepo gitSys "https://example/repo.git" "/data/dest" "main" "HEAD^"
        (syncRepo gitSys "https://example/repo.git" "/data/dest" "main" "HEAD^"
          (remoteAt "c2")).world).world "/data/dest" ≠
        filesAt (syncRepo gitSys "https://example/repo.git" "/data/dest" "main" "HEAD^"
          (remoteAt "c2")).world "/data/dest" ∧
      (syncRepo gitSys "https://example/repo.git" "/data/dest" "main" "HEAD^"
        (syncRepo gitSys "https://example/repo.git" "/data/dest" "main" "HEAD^"
          (syncRepo gitSys "https://example/repo.git" "/data/dest" "main" "HEAD^"
            (remoteAt "c2")).world).world).err ≠ none := by
  decide

/-- C3 (convergence), the code at the failing input. The mirror at `/data/dest` is
initialised by a first call while the branch `main` of the remote is at `c1`; the
remote then advances to `c2`. A second call with the revision `HEAD` returns `nil`
and leaves the tree of `c1`, while a call into an empty destination against the
same remote (a fresh clone followed by the reset) gives the tree of `c2`. -/
theorem sync_convergence_failing_input :
    (syncRepo gitSys "https://example/repo.git" "/data/dest" "main" "HEAD"
        (remoteAt "c1")).err = none ∧
      (syncRepo gitSys "https://example/repo.git" "/data/dest" "main" "HEAD"
        (advance (syncRepo gitSys "https://example/repo.git" "/data/dest" "main" "HEAD"
          (remoteAt "c1")).world "c2")).err = none ∧
      filesAt (syncRepo gitSys "https://example/repo.git" "/data/dest" "main" "HEAD"
        (advance (syncRepo gitSys "https://example/repo.git" "/data/dest" "main" "HEAD"
          (remoteAt "c1")).world "c2")).world "/data/dest" = [⟨"README", "v1", 493⟩] ∧
      (syncRepo gitSys "https://example/repo.git" "/data/dest" "main" "HEAD"
        (remoteAt "c2")).err = none ∧
      filesAt (syncRepo gitSys "https://example/repo.git" "/data/dest" "main" "HEAD"
        (remoteAt "c2")).world "/data/dest" = [⟨"README", "v2", 493⟩] ∧
      cmdsOf (syncRepo gitSys "https://example/repo.git" "/data/dest" "main" "HEAD"
        (advance (syncRepo gitSys "https://example/repo.git" "/data/dest" "main" "HEAD"
          (remoteAt "c1")).world "c2")).events =
        [(⟨["git", "fetch", "origin", "main"], "/data/dest"⟩,
            ⟨"From https://example/repo.git\n", none⟩),
          (⟨["git", "reset", "--hard", "HEAD"], "/data/dest"⟩,
            ⟨"HEAD is now at c1\n", none⟩),
          (⟨["chmod", "-R", "755", "/data/dest"], "/data/dest"⟩, ⟨"", none⟩)] := by
  decide

end GitClaims

end GitSync
